import Mathlib

/-
Verification of the interactive-refsheet core against its specification.

The development shallowly embeds the three TypeScript modules that carry the
algorithmic content of the repository:

  * src/utils/positioning.ts      (panel placement geometry)
  * src/utils/colorConversion.ts  (hex / RGB / HSL color model)
  * src/utils/colorExtraction.ts  (pixel sampling with a bounded FIFO cache)

JavaScript numbers are modeled as rationals (every quantity the claims touch
is produced by exact integer or small-fraction arithmetic), JavaScript string
contents are modeled as lists of code points where their structure matters,
and fallible operations return `Except`.
-/

namespace RefSheet

/-! ## Panel placement (src/utils/positioning.ts) -/

/-- Rectangle `{x, y, width, height}` in container-local pixel units
(`SegmentBounds` in src/types). -/
structure SegmentBounds where
  x : ℚ
  y : ℚ
  width : ℚ
  height : ℚ
deriving DecidableEq

/-- Container size `{width, height}` (`Dimensions` in src/types). -/
structure Dimensions where
  width : ℚ
  height : ℚ
deriving DecidableEq

/-- The side of the region a panel is anchored to. -/
inductive Side where
  | left
  | right
  | top
  | bottom
deriving DecidableEq

/-- The caller-supplied side preference of `calculatePanelPosition`. -/
inductive PreferredSide where
  | left
  | right
  | auto
deriving DecidableEq

/-- Result record `{x, y, side}` of `calculatePanelPosition`
(`PanelPosition` in src/types). -/
structure PanelPosition where
  x : ℚ
  y : ℚ
  side : Side
deriving DecidableEq

/-- `PANEL_DIMENSIONS.width` in positioning.ts. -/
def PANEL_WIDTH : ℚ := 192

/-- `PANEL_DIMENSIONS.height` in positioning.ts. -/
def PANEL_HEIGHT : ℚ := 140

/-- Minimum distance from container edges (positioning.ts). -/
def EDGE_PADDING : ℚ := 16

/-- Distance between segment and panel (positioning.ts). -/
def SEGMENT_PANEL_GAP : ℚ := 12

/-- Embedding of `calculatePanelPosition` from src/utils/positioning.ts.

The source sorts the two-element arrays of horizontal and of vertical sides
descending by space with a stable sort, and in the fallback sorts the
four-element concatenation `[...horizontalSpaces, ...verticalSpaces]` the same
way and takes the head.  For a stable descending sort the head is the leftmost
maximal element, which the embedding computes directly: ties prefer `right`
over `left`, `bottom` over `top`, and the best horizontal side over the best
vertical side, exactly as in the source arrays' original order. -/
def calculatePanelPosition (segmentBounds : SegmentBounds)
    (containerDimensions : Dimensions)
    (preferredSide : PreferredSide) : PanelPosition :=
  let panelWidth := PANEL_WIDTH
  let panelHeight := PANEL_HEIGHT
  let segmentCenterX := segmentBounds.x + segmentBounds.width / 2
  let segmentCenterY := segmentBounds.y + segmentBounds.height / 2
  let spaceLeft := segmentBounds.x
  let spaceRight := containerDimensions.width - (segmentBounds.x + segmentBounds.width)
  let spaceTop := segmentBounds.y
  let spaceBottom := containerDimensions.height - (segmentBounds.y + segmentBounds.height)
  let bestSide : Side :=
    if preferredSide = PreferredSide.left ∧
        spaceLeft ≥ panelWidth + SEGMENT_PANEL_GAP + EDGE_PADDING then
      Side.left
    else if preferredSide = PreferredSide.right ∧
        spaceRight ≥ panelWidth + SEGMENT_PANEL_GAP + EDGE_PADDING then
      Side.right
    else
      let bestHorizontal : Side × ℚ :=
        if spaceLeft > spaceRight then (Side.left, spaceLeft) else (Side.right, spaceRight)
      let bestVertical : Side × ℚ :=
        if spaceTop > spaceBottom then (Side.top, spaceTop) else (Side.bottom, spaceBottom)
      if bestHorizontal.2 ≥ panelWidth + SEGMENT_PANEL_GAP + EDGE_PADDING then
        bestHorizontal.1
      else if bestVertical.2 ≥ panelHeight + SEGMENT_PANEL_GAP + EDGE_PADDING then
        bestVertical.1
      else if bestHorizontal.2 ≥ bestVertical.2 then bestHorizontal.1 else bestVertical.1
  match bestSide with
  | Side.left =>
      { x := max EDGE_PADDING (segmentBounds.x - panelWidth - SEGMENT_PANEL_GAP)
        y := max EDGE_PADDING (min (segmentCenterY - panelHeight / 2)
               (containerDimensions.height - panelHeight - EDGE_PADDING))
        side := Side.left }
  | Side.right =>
      { x := min (containerDimensions.width - panelWidth - EDGE_PADDING)
               (segmentBounds.x + segmentBounds.width + SEGMENT_PANEL_GAP)
        y := max EDGE_PADDING (min (segmentCenterY - panelHeight / 2)
               (containerDimensions.height - panelHeight - EDGE_PADDING))
        side := Side.right }
  | Side.top =>
      { x := max EDGE_PADDING (min (segmentCenterX - panelWidth / 2)
               (containerDimensions.width - panelWidth - EDGE_PADDING))
        y := max EDGE_PADDING (segmentBounds.y - panelHeight - SEGMENT_PANEL_GAP)
        side := Side.top }
  | Side.bottom =>
      { x := max EDGE_PADDING (min (segmentCenterX - panelWidth / 2)
               (containerDimensions.width - panelWidth - EDGE_PADDING))
        y := min (containerDimensions.height - panelHeight - EDGE_PADDING)
               (segmentBounds.y + segmentBounds.height + SEGMENT_PANEL_GAP)
        side := Side.bottom }

/-- Embedding of `getResponsivePanelDimensions` from src/utils/positioning.ts. -/
def getResponsivePanelDimensions (containerWidth : ℚ) : Dimensions :=
  if containerWidth < 640 then
    { width := min 160 (containerWidth - 32), height := 120 }
  else
    { width := PANEL_WIDTH, height := PANEL_HEIGHT }

/-! ### Claims about panel placement -/

/-- Claim C9 (confirmed): `calculatePanelPosition` is total — for every region,
container and preferred side (degenerate inputs included) it returns a
placement `{x, y, side}`, and the returned side is one of left, right, top,
bottom. -/
theorem calculatePanelPosition_total (segmentBounds : SegmentBounds)
    (containerDimensions : Dimensions) (preferredSide : PreferredSide) :
    ∃ px py s,
      calculatePanelPosition segmentBounds containerDimensions preferredSide = ⟨px, py, s⟩ ∧
        (s = Side.left ∨ s = Side.right ∨ s = Side.top ∨ s = Side.bottom) := by
  rcases h : calculatePanelPosition segmentBounds containerDimensions preferredSide
    with ⟨px, py, s⟩
  exact ⟨px, py, s, rfl, by cases s <;> simp⟩

/-- Claim C7 (confirmed): when the preferred side is `left` (resp. `right`) and
the space available on that side is at least
`panelWidth + clearance + edgePadding`, the placement uses the preferred
side. -/
theorem calculatePanelPosition_preferred (segmentBounds : SegmentBounds)
    (containerDimensions : Dimensions) (preferredSide : PreferredSide) :
    (preferredSide = PreferredSide.left →
      segmentBounds.x ≥ PANEL_WIDTH + SEGMENT_PANEL_GAP + EDGE_PADDING →
      (calculatePanelPosition segmentBounds containerDimensions preferredSide).side =
        Side.left) ∧
    (preferredSide = PreferredSide.right →
      containerDimensions.width - (segmentBounds.x + segmentBounds.width) ≥
          PANEL_WIDTH + SEGMENT_PANEL_GAP + EDGE_PADDING →
      (calculatePanelPosition segmentBounds containerDimensions preferredSide).side =
        Side.right) := by
  constructor
  · rintro rfl h
    simp [calculatePanelPosition, h]
  · rintro rfl h
    simp [calculatePanelPosition, h, show PreferredSide.right ≠ PreferredSide.left by decide]

/-- Witness for claim C7 at a concrete input: a region with 300px free on the
left and preferred side `left` is placed on the left. -/
theorem calculatePanelPosition_preferred_witness :
    (calculatePanelPosition ⟨300, 0, 10, 10⟩ ⟨600, 600⟩ PreferredSide.left).side = Side.left :=
  (calculatePanelPosition_preferred ⟨300, 0, 10, 10⟩ ⟨600, 600⟩ PreferredSide.left).1 rfl
    (by norm_num [PANEL_WIDTH, SEGMENT_PANEL_GAP, EDGE_PADDING])

/-- Claim C3 (amended): for a region fully inside the container and a container
large enough to admit the panel with its edge padding, the returned position
keeps the panel inside the container with a margin of at least
`SEGMENT_PANEL_GAP = 12` pixels on both axes.  The margin claimed by the spec,
`EDGE_PADDING = 16`, does not always hold on the coordinate axis that runs
toward the chosen side (see the counterexample), because the source clamps
that coordinate against one container edge only. -/
theorem calculatePanelPosition_containment (segmentBounds : SegmentBounds)
    (containerDimensions : Dimensions) (preferredSide : PreferredSide)
    (hx0 : 0 ≤ segmentBounds.x) (hy0 : 0 ≤ segmentBounds.y)
    (hw0 : 0 ≤ segmentBounds.width) (hh0 : 0 ≤ segmentBounds.height)
    (hxw : segmentBounds.x + segmentBounds.width ≤ containerDimensions.width)
    (hyh : segmentBounds.y + segmentBounds.height ≤ containerDimensions.height)
    (hW : PANEL_WIDTH + 2 * EDGE_PADDING ≤ containerDimensions.width)
    (hH : PANEL_HEIGHT + 2 * EDGE_PADDING ≤ containerDimensions.height) :
    SEGMENT_PANEL_GAP ≤
        (calculatePanelPosition segmentBounds containerDimensions preferredSide).x ∧
      (calculatePanelPosition segmentBounds containerDimensions preferredSide).x + PANEL_WIDTH ≤
        containerDimensions.width - SEGMENT_PANEL_GAP ∧
      SEGMENT_PANEL_GAP ≤
        (calculatePanelPosition segmentBounds containerDimensions preferredSide).y ∧
      (calculatePanelPosition segmentBounds containerDimensions preferredSide).y + PANEL_HEIGHT ≤
        containerDimensions.height - SEGMENT_PANEL_GAP := by
  simp only [PANEL_WIDTH, PANEL_HEIGHT, EDGE_PADDING, SEGMENT_PANEL_GAP] at hW hH ⊢
  unfold calculatePanelPosition
  simp only [PANEL_WIDTH, PANEL_HEIGHT, EDGE_PADDING, SEGMENT_PANEL_GAP]
  split
  · refine ⟨?_, ?_, ?_, ?_⟩
    · exact le_trans (by norm_num) (le_max_left _ _)
    · have h1 : max (16:ℚ) (segmentBounds.x - 192 - 12) ≤ containerDimensions.width - 204 :=
        max_le (by linarith) (by linarith)
      linarith
    · exact le_trans (by norm_num) (le_max_left _ _)
    · have h1 : (segmentBounds.y + segmentBounds.height / 2 - 140 / 2) ⊓
          (containerDimensions.height - 140 - 16) ≤ containerDimensions.height - 140 - 16 :=
        min_le_right _ _
      have h2 : max (16:ℚ) ((segmentBounds.y + segmentBounds.height / 2 - 140 / 2) ⊓
          (containerDimensions.height - 140 - 16)) ≤ containerDimensions.height - 152 :=
        max_le (by linarith) (by linarith)
      linarith
  · refine ⟨?_, ?_, ?_, ?_⟩
    · exact le_min (by linarith) (by linarith)
    · have h1 : (containerDimensions.width - 192 - 16) ⊓
          (segmentBounds.x + segmentBounds.width + 12) ≤ containerDimensions.width - 192 - 16 :=
        min_le_left _ _
      linarith
    · exact le_trans (by norm_num) (le_max_left _ _)
    · have h1 : (segmentBounds.y + segmentBounds.height / 2 - 140 / 2) ⊓
          (containerDimensions.height - 140 - 16) ≤ containerDimensions.height - 140 - 16 :=
        min_le_right _ _
      have h2 : max (16:ℚ) ((segmentBounds.y + segmentBounds.height / 2 - 140 / 2) ⊓
          (containerDimensions.height - 140 - 16)) ≤ containerDimensions.height - 152 :=
        max_le (by linarith) (by linarith)
      linarith
  · refine ⟨?_, ?_, ?_, ?_⟩
    · exact le_trans (by norm_num) (le_max_left _ _)
    · have h1 : (segmentBounds.x + segmentBounds.width / 2 - 192 / 2) ⊓
          (containerDimensions.width - 192 - 16) ≤ containerDimensions.width - 192 - 16 :=
        min_le_right _ _
      have h2 : max (16:ℚ) ((segmentBounds.x + segmentBounds.width / 2 - 192 / 2) ⊓
          (containerDimensions.width - 192 - 16)) ≤ containerDimensions.width - 204 :=
        max_le (by linarith) (by linarith)
      linarith
    · exact le_trans (by norm_num) (le_max_left _ _)
    · have h1 : max (16:ℚ) (segmentBounds.y - 140 - 12) ≤ containerDimensions.height - 152 :=
        max_le (by linarith) (by linarith)
      linarith
  · refine ⟨?_, ?_, ?_, ?_⟩
    · exact le_trans (by norm_num) (le_max_left _ _)
    · have h1 : (segmentBounds.x + segmentBounds.width / 2 - 192 / 2) ⊓
          (containerDimensions.width - 192 - 16) ≤ containerDimensions.width - 192 - 16 :=
        min_le_right _ _
      have h2 : max (16:ℚ) ((segmentBounds.x + segmentBounds.width / 2 - 192 / 2) ⊓
          (containerDimensions.width - 192 - 16)) ≤ containerDimensions.width - 204 :=
        max_le (by linarith) (by linarith)
      linarith
    · exact le_min (by linarith) (by linarith)
    · have h1 : (containerDimensions.height - 140 - 16) ⊓
          (segmentBounds.y + segmentBounds.height + 12) ≤ containerDimensions.height - 140 - 16 :=
        min_le_left _ _
      linarith

/-- Counterexample for claim C3 as stated: the 1×1 region at (223, 50) sits
fully inside the 224×172 container, the container admits the 192×140 panel
with 16px edge padding on both axes, yet the placement for preferred side
`left` is `{x := 19, y := 16}` and `19 + 192 = 211` exceeds
`224 - EDGE_PADDING = 208`. -/
theorem calculatePanelPosition_containment_cex :
    ((0 : ℚ) ≤ 223 ∧ (223 : ℚ) + 1 ≤ 224 ∧ (50 : ℚ) + 1 ≤ 172 ∧
      PANEL_WIDTH + 2 * EDGE_PADDING ≤ 224 ∧ PANEL_HEIGHT + 2 * EDGE_PADDING ≤ 172) ∧
    calculatePanelPosition ⟨223, 50, 1, 1⟩ ⟨224, 172⟩ PreferredSide.left
      = ⟨19, 16, Side.left⟩ ∧
    ¬((19 : ℚ) + PANEL_WIDTH ≤ 224 - EDGE_PADDING) := by
  refine ⟨by norm_num [PANEL_WIDTH, PANEL_HEIGHT, EDGE_PADDING], ?_, ?_⟩
  · norm_num [calculatePanelPosition, PANEL_WIDTH, PANEL_HEIGHT, EDGE_PADDING, SEGMENT_PANEL_GAP]
  · norm_num [PANEL_WIDTH, EDGE_PADDING]

/-- Witness for claim C3 (amended) at a concrete input. -/
theorem calculatePanelPosition_containment_witness :
    SEGMENT_PANEL_GAP ≤
        (calculatePanelPosition ⟨50, 50, 20, 20⟩ ⟨400, 400⟩ PreferredSide.auto).x ∧
      (calculatePanelPosition ⟨50, 50, 20, 20⟩ ⟨400, 400⟩ PreferredSide.auto).x + PANEL_WIDTH ≤
        (400 : ℚ) - SEGMENT_PANEL_GAP ∧
      SEGMENT_PANEL_GAP ≤
        (calculatePanelPosition ⟨50, 50, 20, 20⟩ ⟨400, 400⟩ PreferredSide.auto).y ∧
      (calculatePanelPosition ⟨50, 50, 20, 20⟩ ⟨400, 400⟩ PreferredSide.auto).y + PANEL_HEIGHT ≤
        (400 : ℚ) - SEGMENT_PANEL_GAP :=
  calculatePanelPosition_containment ⟨50, 50, 20, 20⟩ ⟨400, 400⟩ PreferredSide.auto
    (by norm_num) (by norm_num) (by norm_num) (by norm_num) (by norm_num) (by norm_num)
    (by norm_num [PANEL_WIDTH, EDGE_PADDING]) (by norm_num [PANEL_HEIGHT, EDGE_PADDING])

/-- Claim C8 (amended): `calculatePanelPosition` takes no compact-mode input;
it always compares against the fixed 192×140 panel and prefers horizontal
placement (the reduced size computed by `getResponsivePanelDimensions` for
containers narrower than 640px is not used in the placement computation, and
the preference order is never inverted).  What does hold, and is proved here,
is the claim's concrete consequence: when both horizontal sides lack room for
the fixed panel and some vertical side has room for it, the chosen side is
top or bottom — also for containers narrower than 640px. -/
theorem calculatePanelPosition_compact_vertical (segmentBounds : SegmentBounds)
    (containerDimensions : Dimensions) (preferredSide : PreferredSide)
    (hcompact : containerDimensions.width < 640)
    (hL : segmentBounds.x < PANEL_WIDTH + SEGMENT_PANEL_GAP + EDGE_PADDING)
    (hR : containerDimensions.width - (segmentBounds.x + segmentBounds.width) <
        PANEL_WIDTH + SEGMENT_PANEL_GAP + EDGE_PADDING)
    (hV : PANEL_HEIGHT + SEGMENT_PANEL_GAP + EDGE_PADDING ≤
        max segmentBounds.y
          (containerDimensions.height - (segmentBounds.y + segmentBounds.height))) :
    (calculatePanelPosition segmentBounds containerDimensions preferredSide).side = Side.top ∨
      (calculatePanelPosition segmentBounds containerDimensions preferredSide).side =
        Side.bottom := by
  clear hcompact
  unfold calculatePanelPosition
  simp only [PANEL_WIDTH, PANEL_HEIGHT, EDGE_PADDING, SEGMENT_PANEL_GAP] at hL hR hV ⊢
  split_ifs with h1 h2 h3 h4 h5 h6 h7 h8 h9 h10 <;>
    first
      | (exfalso; rcases h1 with ⟨-, h⟩; linarith)
      | (exfalso; rcases h2 with ⟨-, h⟩; linarith)
      | (left; simp)
      | (right; simp)
      | (exfalso;
         rcases le_or_lt segmentBounds.y
             (containerDimensions.height - (segmentBounds.y + segmentBounds.height)) with hc | hc <;>
           simp_all [max_eq_left, max_eq_right] <;> linarith)

/-- Counterexample for claim C8 as stated, at concrete inputs in a container
narrower than the 640px small-container threshold: with ample space on all
four sides the auto placement still prefers a horizontal side (`left`), so the
preference order is not inverted toward vertical; and with 200px free on the
preferred right side — enough for the reduced 160px panel plus clearance and
padding, but not for the fixed 192px panel — the placement refuses `right`,
so the reduced size is not what the space computations use. -/
theorem calculatePanelPosition_compact_cex :
    (600 : ℚ) < 640 ∧
    getResponsivePanelDimensions 600 = ⟨160, 120⟩ ∧
    (calculatePanelPosition ⟨300, 500, 10, 10⟩ ⟨600, 1000⟩ PreferredSide.auto).side = Side.left ∧
    (calculatePanelPosition ⟨10, 500, 390, 10⟩ ⟨600, 1000⟩ PreferredSide.right).side = Side.top ∧
    (160 : ℚ) + SEGMENT_PANEL_GAP + EDGE_PADDING ≤ 200 ∧
    ¬(Side.left = Side.top ∨ Side.left = Side.bottom) := by
  refine ⟨by norm_num, ?_, ?_, ?_, by norm_num [SEGMENT_PANEL_GAP, EDGE_PADDING], by decide⟩
  · norm_num [getResponsivePanelDimensions]
  · norm_num [calculatePanelPosition, PANEL_WIDTH, PANEL_HEIGHT, EDGE_PADDING, SEGMENT_PANEL_GAP]
    decide
  · norm_num [calculatePanelPosition, PANEL_WIDTH, PANEL_HEIGHT, EDGE_PADDING, SEGMENT_PANEL_GAP]

/-- Witness for claim C8 (amended) at a concrete input. -/
theorem calculatePanelPosition_compact_vertical_witness :
    (calculatePanelPosition ⟨10, 500, 390, 10⟩ ⟨600, 1000⟩ PreferredSide.right).side = Side.top ∨
      (calculatePanelPosition ⟨10, 500, 390, 10⟩ ⟨600, 1000⟩ PreferredSide.right).side =
        Side.bottom :=
  calculatePanelPosition_compact_vertical ⟨10, 500, 390, 10⟩ ⟨600, 1000⟩ PreferredSide.right
    (by norm_num) (by norm_num [PANEL_WIDTH, SEGMENT_PANEL_GAP, EDGE_PADDING])
    (by norm_num [PANEL_WIDTH, SEGMENT_PANEL_GAP, EDGE_PADDING])
    (le_trans (by norm_num [PANEL_HEIGHT, SEGMENT_PANEL_GAP, EDGE_PADDING]) (le_max_left _ _))

/-! ## Color-model conversion (src/utils/colorConversion.ts) -/

/-- RGB record of JS numbers (src/types). -/
structure RGB where
  r : ℚ
  g : ℚ
  b : ℚ
deriving DecidableEq

/-- HSL record of JS numbers (src/types). -/
structure HSL where
  h : ℚ
  s : ℚ
  l : ℚ
deriving DecidableEq

/-- Errors thrown by the conversion functions (`Invalid hex color`,
`Invalid RGB values`, `Invalid HSL values`), carrying the rejected input. -/
inductive ColorError where
  | invalidHex (hex : String)
  | invalidRgb (rgb : RGB)
  | invalidHsl (hsl : HSL)
deriving DecidableEq

/-- JS `Math.round`: round half toward positive infinity. -/
def jsRound (x : ℚ) : ℤ := ⌊x + 1 / 2⌋

/-- A code point matched by the hex-digit character class `[0-9A-Fa-f]`. -/
def isHexDigitChar (c : Char) : Bool :=
  decide ((48 ≤ c.toNat ∧ c.toNat ≤ 57) ∨ (65 ≤ c.toNat ∧ c.toNat ≤ 70) ∨
    (97 ≤ c.toNat ∧ c.toNat ≤ 102))

/-- JS `String.prototype.toUpperCase` on one ASCII character. -/
def jsToUpperChar (c : Char) : Char :=
  if 97 ≤ c.toNat ∧ c.toNat ≤ 122 then Char.ofNat (c.toNat - 32) else c

/-- Value of one hex digit, as read by `parseInt(…, 16)`.  The fallback 0 is
never reached behind `isValidHex`. -/
def hexDigitVal (c : Char) : ℕ :=
  if 48 ≤ c.toNat ∧ c.toNat ≤ 57 then c.toNat - 48
  else if 65 ≤ c.toNat ∧ c.toNat ≤ 70 then c.toNat - 55
  else if 97 ≤ c.toNat ∧ c.toNat ≤ 102 then c.toNat - 87
  else 0

/-- Lower-case hex digit, as produced by `Number.prototype.toString(16)`. -/
def hexDigitChar (v : ℕ) : Char :=
  if v < 10 then Char.ofNat (48 + v) else Char.ofNat (87 + v)

/-- `hex.startsWith('#') ? hex.slice(1) : hex` on the character list. -/
def stripHash (cs : List Char) : List Char :=
  match cs with
  | '#' :: rest => rest
  | _ => cs

/-- `parseInt` of a two-character hex slice (`substring` yields exactly two
characters at every call site). -/
def parseHexPair (cs : List Char) : ℚ :=
  match cs with
  | [c1, c2] => ((16 * hexDigitVal c1 + hexDigitVal c2 : ℕ) : ℚ)
  | _ => 0

/-- `n.toString(16).padStart(2, '0')` for the rounded channel `n ∈ [0, 255]`. -/
def byteToHexLower (n : ℤ) : List Char :=
  let m := n.toNat
  if m < 16 then ['0', hexDigitChar m] else [hexDigitChar (m / 16), hexDigitChar (m % 16)]

/-- Embedding of `isValidHex`: 3 or 6 hex digits after an optional `#`. -/
def isValidHex (s : String) : Bool :=
  let clean := stripHash s.data
  (clean.length == 3 || clean.length == 6) && clean.all isHexDigitChar

/-- Embedding of `isValidRgb`: every channel a number in `[0, 255]`. -/
def isValidRgb (rgb : RGB) : Bool :=
  decide (0 ≤ rgb.r ∧ rgb.r ≤ 255 ∧ 0 ≤ rgb.g ∧ rgb.g ≤ 255 ∧ 0 ≤ rgb.b ∧ rgb.b ≤ 255)

/-- Embedding of `isValidHsl`: `h ∈ [0, 360]`, `s, l ∈ [0, 100]`. -/
def isValidHsl (hsl : HSL) : Bool :=
  decide (0 ≤ hsl.h ∧ hsl.h ≤ 360 ∧ 0 ≤ hsl.s ∧ hsl.s ≤ 100 ∧ 0 ≤ hsl.l ∧ hsl.l ≤ 100)

/-- The string `normalizeHex` builds for a valid input: expand a 3-digit form
by doubling each digit, uppercase, prefix `#`. -/
def normalizeHexCore (s : String) : String :=
  let clean := stripHash s.data
  let clean6 := if clean.length = 3 then (clean.map fun c => [c, c]).flatten else clean
  String.mk ('#' :: clean6.map jsToUpperChar)

/-- Embedding of `normalizeHex`. -/
def normalizeHex (s : String) : Except ColorError String :=
  if isValidHex s then Except.ok (normalizeHexCore s) else Except.error (ColorError.invalidHex s)

/-- Embedding of `hexToRgb`. -/
def hexToRgb (s : String) : Except ColorError RGB :=
  if isValidHex s then
    let cleanHex := (normalizeHexCore s).data.tail
    Except.ok
      { r := parseHexPair (cleanHex.take 2)
        g := parseHexPair ((cleanHex.drop 2).take 2)
        b := parseHexPair ((cleanHex.drop 4).take 2) }
  else Except.error (ColorError.invalidHex s)

/-- Embedding of `rgbToHex`. -/
def rgbToHex (rgb : RGB) : Except ColorError String :=
  if isValidRgb rgb then
    let rInt := jsRound rgb.r
    let gInt := jsRound rgb.g
    let bInt := jsRound rgb.b
    Except.ok (String.mk
      (('#' :: (byteToHexLower rInt ++ byteToHexLower gInt ++ byteToHexLower bInt)).map
        jsToUpperChar))
  else Except.error (ColorError.invalidRgb rgb)

/-- Embedding of `rgbToHsl`. -/
def rgbToHsl (rgb : RGB) : Except ColorError HSL :=
  if isValidRgb rgb then
    let rNorm := rgb.r / 255
    let gNorm := rgb.g / 255
    let bNorm := rgb.b / 255
    let mx := max rNorm (max gNorm bNorm)
    let mn := min rNorm (min gNorm bNorm)
    let diff := mx - mn
    let l := (mx + mn) / 2
    let hs : ℚ × ℚ :=
      if diff = 0 then (0, 0)
      else
        let s := if l > 1 / 2 then diff / (2 - mx - mn) else diff / (mx + mn)
        let h :=
          if mx = rNorm then ((gNorm - bNorm) / diff + (if gNorm < bNorm then 6 else 0)) / 6
          else if mx = gNorm then ((bNorm - rNorm) / diff + 2) / 6
          else ((rNorm - gNorm) / diff + 4) / 6
        (h, s)
    Except.ok
      { h := (jsRound (hs.1 * 360) : ℤ)
        s := (jsRound (hs.2 * 100) : ℤ)
        l := (jsRound (l * 100) : ℤ) }
  else Except.error (ColorError.invalidRgb rgb)

/-- Embedding of the `hue2rgb` helper inside `hslToRgb`. -/
def hue2rgb (p q t : ℚ) : ℚ :=
  let t1 := if t < 0 then t + 1 else t
  let t2 := if t1 > 1 then t1 - 1 else t1
  if t2 < 1 / 6 then p + (q - p) * 6 * t2
  else if t2 < 1 / 2 then q
  else if t2 < 2 / 3 then p + (q - p) * (2 / 3 - t2) * 6
  else p

/-- Embedding of `hslToRgb`. -/
def hslToRgb (hsl : HSL) : Except ColorError RGB :=
  if isValidHsl hsl then
    let hNorm := hsl.h / 360
    let sNorm := hsl.s / 100
    let lNorm := hsl.l / 100
    let rgb : ℚ × ℚ × ℚ :=
      if sNorm = 0 then (lNorm, lNorm, lNorm)
      else
        let q := if lNorm < 1 / 2 then lNorm * (1 + sNorm) else lNorm + sNorm - lNorm * sNorm
        let p := 2 * lNorm - q
        (hue2rgb p q (hNorm + 1 / 3), hue2rgb p q hNorm, hue2rgb p q (hNorm - 1 / 3))
    Except.ok
      { r := (jsRound (rgb.1 * 255) : ℤ)
        g := (jsRound (rgb.2.1 * 255) : ℤ)
        b := (jsRound (rgb.2.2 * 255) : ℤ) }
  else Except.error (ColorError.invalidHsl hsl)

lemma charToNat_ofNat (n : ℕ) (h : n < 55296) : (Char.ofNat n).toNat = n := by
  simp [Char.ofNat, Nat.isValidChar, h, Char.ofNatAux, Char.toNat, UInt32.toNat,
    BitVec.toNat_ofNatLt]

lemma hexDigitVal_le (c : Char) : hexDigitVal c ≤ 15 := by
  unfold hexDigitVal
  split_ifs <;> omega

lemma jsToUpperChar_toUpper_hexDigit (c : Char) (hc : isHexDigitChar c = true) :
    jsToUpperChar (hexDigitChar (hexDigitVal (jsToUpperChar c))) = jsToUpperChar c := by
  have hc' : (48 ≤ c.toNat ∧ c.toNat ≤ 57) ∨ (65 ≤ c.toNat ∧ c.toNat ≤ 70) ∨
      (97 ≤ c.toNat ∧ c.toNat ≤ 102) := by
    simpa [isHexDigitChar] using hc
  rcases hc' with h | h | h
  · have hu : jsToUpperChar c = c := by
      simp only [jsToUpperChar]
      rw [if_neg (by omega)]
    have hv : hexDigitVal c = c.toNat - 48 := by
      simp only [hexDigitVal]
      rw [if_pos (by omega)]
    have hd : hexDigitChar (c.toNat - 48) = c := by
      simp only [hexDigitChar]
      rw [if_pos (by omega)]
      have e : 48 + (c.toNat - 48) = c.toNat := by omega
      rw [e, Char.ofNat_toNat]
    rw [hu, hv, hd, hu]
  · have hu : jsToUpperChar c = c := by
      simp only [jsToUpperChar]
      rw [if_neg (by omega)]
    have hv : hexDigitVal c = c.toNat - 55 := by
      simp only [hexDigitVal]
      rw [if_neg (by omega), if_pos (by omega)]
    have hd : hexDigitChar (c.toNat - 55) = Char.ofNat (c.toNat + 32) := by
      simp only [hexDigitChar]
      rw [if_neg (by omega)]
      have e : 87 + (c.toNat - 55) = c.toNat + 32 := by omega
      rw [e]
    have ht : (Char.ofNat (c.toNat + 32)).toNat = c.toNat + 32 :=
      charToNat_ofNat _ (by omega)
    rw [hu, hv, hd]
    simp only [jsToUpperChar, ht]
    rw [if_pos (by omega)]
    have e2 : c.toNat + 32 - 32 = c.toNat := by omega
    rw [e2, Char.ofNat_toNat]
  · have hu : jsToUpperChar c = Char.ofNat (c.toNat - 32) := by
      simp only [jsToUpperChar]
      rw [if_pos (by omega)]
    have ht : (Char.ofNat (c.toNat - 32)).toNat = c.toNat - 32 :=
      charToNat_ofNat _ (by omega)
    have hv : hexDigitVal (Char.ofNat (c.toNat - 32)) = c.toNat - 87 := by
      simp only [hexDigitVal, ht]
      rw [if_neg (by omega), if_pos (by omega)]
      omega
    have hd : hexDigitChar (c.toNat - 87) = c := by
      simp only [hexDigitChar]
      rw [if_neg (by omega)]
      have e : 87 + (c.toNat - 87) = c.toNat := by omega
      rw [e, Char.ofNat_toNat]
    rw [hu, hv, hd, ← hu]

lemma jsToUpperChar_hexDigitVal_zero (c : Char) (hc : isHexDigitChar c = true)
    (h0 : hexDigitVal (jsToUpperChar c) = 0) : jsToUpperChar c = '0' := by
  have hc' : (48 ≤ c.toNat ∧ c.toNat ≤ 57) ∨ (65 ≤ c.toNat ∧ c.toNat ≤ 70) ∨
      (97 ≤ c.toNat ∧ c.toNat ≤ 102) := by
    simpa [isHexDigitChar] using hc
  rcases hc' with h | h | h
  · have hu : jsToUpperChar c = c := by
      simp only [jsToUpperChar]
      rw [if_neg (by omega)]
    rw [hu] at h0 ⊢
    simp only [hexDigitVal] at h0
    rw [if_pos (by omega)] at h0
    have h48 : c.toNat = 48 := by omega
    rw [← Char.ofNat_toNat c, h48]
  · exfalso
    have hu : jsToUpperChar c = c := by
      simp only [jsToUpperChar]
      rw [if_neg (by omega)]
    rw [hu] at h0
    simp only [hexDigitVal] at h0
    rw [if_neg (by omega), if_pos (by omega)] at h0
    omega
  · exfalso
    have hu : jsToUpperChar c = Char.ofNat (c.toNat - 32) := by
      simp only [jsToUpperChar]
      rw [if_pos (by omega)]
    rw [hu] at h0
    have ht : (Char.ofNat (c.toNat - 32)).toNat = c.toNat - 32 :=
      charToNat_ofNat _ (by omega)
    simp only [hexDigitVal, ht] at h0
    rw [if_neg (by omega), if_pos (by omega)] at h0
    omega

lemma jsRound_natCast (n : ℕ) : jsRound (n : ℚ) = (n : ℤ) := by
  unfold jsRound
  rw [Int.floor_eq_iff]
  push_cast
  constructor <;> linarith

lemma byteToHexLower_roundtrip (c1 c2 : Char) (h1 : isHexDigitChar c1 = true)
    (h2 : isHexDigitChar c2 = true) :
    (byteToHexLower ((16 * hexDigitVal (jsToUpperChar c1) +
        hexDigitVal (jsToUpperChar c2) : ℕ) : ℤ)).map jsToUpperChar
      = [jsToUpperChar c1, jsToUpperChar c2] := by
  have hle2 : hexDigitVal (jsToUpperChar c2) ≤ 15 := hexDigitVal_le _
  simp only [byteToHexLower, Int.toNat_natCast]
  by_cases hcase : 16 * hexDigitVal (jsToUpperChar c1) + hexDigitVal (jsToUpperChar c2) < 16
  · have hv10 : hexDigitVal (jsToUpperChar c1) = 0 := by omega
    rw [if_pos hcase]
    have he : 16 * hexDigitVal (jsToUpperChar c1) + hexDigitVal (jsToUpperChar c2) =
        hexDigitVal (jsToUpperChar c2) := by omega
    rw [he]
    simp only [List.map]
    rw [jsToUpperChar_toUpper_hexDigit c2 h2, jsToUpperChar_hexDigitVal_zero c1 h1 hv10]
    have hz : jsToUpperChar '0' = '0' := by decide
    rw [hz]
  · rw [if_neg hcase]
    have e1 : (16 * hexDigitVal (jsToUpperChar c1) + hexDigitVal (jsToUpperChar c2)) / 16 =
        hexDigitVal (jsToUpperChar c1) := by omega
    have e2 : (16 * hexDigitVal (jsToUpperChar c1) + hexDigitVal (jsToUpperChar c2)) % 16 =
        hexDigitVal (jsToUpperChar c2) := by omega
    rw [e1, e2]
    simp only [List.map]
    rw [jsToUpperChar_toUpper_hexDigit c1 h1, jsToUpperChar_toUpper_hexDigit c2 h2]

lemma exists_six {α : Type} (l : List α) (h : l.length = 6) :
    ∃ a b c d e f, l = [a, b, c, d, e, f] := by
  rcases l with _ | ⟨a, _ | ⟨b, _ | ⟨c, _ | ⟨d, _ | ⟨e, _ | ⟨f, t⟩⟩⟩⟩⟩⟩ <;>
      simp only [List.length_cons, List.length_nil] at h <;> try omega
  have ht : t = [] := List.length_eq_zero.mp (by omega)
  exact ⟨a, b, c, d, e, f, by rw [ht]⟩

/-- Claim C1 (amended): for every valid 6-digit hex string `h` (leading `#`
optional, any letter case), `rgbToHex (hexToRgb h)` succeeds and returns
`normalizeHex h` — the `#`-prefixed uppercase form.  Equality with `h` itself
therefore holds exactly when `h` is already in that form. -/
theorem hexToRgb_rgbToHex_roundtrip (s : String) (hvalid : isValidHex s = true)
    (hlen : (stripHash s.data).length = 6) :
    (hexToRgb s).bind rgbToHex = Except.ok (normalizeHexCore s) := by
  have hall : (stripHash s.data).all isHexDigitChar = true := by
    have h := hvalid
    simp only [isValidHex, Bool.and_eq_true] at h
    exact h.2
  obtain ⟨c1, c2, c3, c4, c5, c6, hcs⟩ := exists_six _ hlen
  rw [hcs] at hall
  simp only [List.all_cons, List.all_nil, Bool.and_eq_true, Bool.and_true] at hall
  obtain ⟨h1, h2, h3, h4, h5, h6⟩ := hall
  have hnorm : normalizeHexCore s = String.mk ('#' ::
      [c1, c2, c3, c4, c5, c6].map jsToUpperChar) := by
    simp [normalizeHexCore, hcs]
  simp only [hexToRgb, hvalid, if_true, hnorm]
  simp only [List.map, Except.bind]
  simp only [List.tail_cons, List.take, List.drop, parseHexPair]
  have hval : isValidRgb
      { r := ((16 * hexDigitVal (jsToUpperChar c1) + hexDigitVal (jsToUpperChar c2) : ℕ) : ℚ),
        g := ((16 * hexDigitVal (jsToUpperChar c3) + hexDigitVal (jsToUpperChar c4) : ℕ) : ℚ),
        b := ((16 * hexDigitVal (jsToUpperChar c5) + hexDigitVal (jsToUpperChar c6) : ℕ) : ℚ) }
      = true := by
    have l1 := hexDigitVal_le (jsToUpperChar c1)
    have l2 := hexDigitVal_le (jsToUpperChar c2)
    have l3 := hexDigitVal_le (jsToUpperChar c3)
    have l4 := hexDigitVal_le (jsToUpperChar c4)
    have l5 := hexDigitVal_le (jsToUpperChar c5)
    have l6 := hexDigitVal_le (jsToUpperChar c6)
    simp only [isValidRgb, decide_eq_true_eq]
    refine ⟨by positivity, ?_, by positivity, ?_, by positivity, ?_⟩ <;>
      · rw [show (255 : ℚ) = ((255 : ℕ) : ℚ) by norm_num, Nat.cast_le]
        omega
  simp only [rgbToHex, hval, if_true]
  simp only [jsRound_natCast]
  have hhash : jsToUpperChar '#' = '#' := by decide
  simp only [List.map_cons, List.map_append, hhash,
    byteToHexLower_roundtrip c1 c2 h1 h2, byteToHexLower_roundtrip c3 c4 h3 h4,
    byteToHexLower_roundtrip c5 c6 h5 h6]
  rfl

/-- Counterexample for claim C1 as stated: `"#ff5733"` is a valid 6-digit hex
string by `isValidHex`, but `rgbToHex (hexToRgb "#ff5733")` returns the
normalized uppercase form `"#FF5733"`, not the input itself. -/
theorem hex_roundtrip_cex :
    isValidHex "#ff5733" = true ∧ (stripHash ("#ff5733" : String).data).length = 6 ∧
    (hexToRgb "#ff5733").bind rgbToHex = Except.ok "#FF5733" ∧
    ("#FF5733" : String) ≠ "#ff5733" := by
  refine ⟨by decide, by decide, ?_, by decide⟩
  rw [show hexToRgb "#ff5733" = Except.ok ⟨255, 87, 51⟩ from rfl]
  show rgbToHex ⟨255, 87, 51⟩ = Except.ok "#FF5733"
  norm_num [rgbToHex, isValidRgb, jsRound]
  rfl

/-- Witness for claim C1 (amended) at a concrete input. -/
theorem hexToRgb_rgbToHex_roundtrip_witness :
    (hexToRgb "#ff5733").bind rgbToHex = Except.ok "#FF5733" :=
  (hexToRgb_rgbToHex_roundtrip "#ff5733" (by decide) (by decide)).trans (by rfl)


end RefSheet

namespace RefSheet

lemma jsRound_abs_le (x : ℚ) : |((jsRound x : ℤ) : ℚ) - x| ≤ 1 / 2 := by
  unfold jsRound
  have h1 : ((⌊x + 1 / 2⌋ : ℤ) : ℚ) ≤ x + 1 / 2 := Int.floor_le _
  have h2 : x + 1 / 2 - 1 < ((⌊x + 1 / 2⌋ : ℤ) : ℚ) := Int.sub_one_lt_floor _
  rw [abs_le]
  constructor <;> linarith

lemma jsRound_nonneg (x : ℚ) (h : 0 ≤ x) : 0 ≤ jsRound x := by
  unfold jsRound
  positivity

lemma jsRound_le_of_le (x : ℚ) (n : ℤ) (h : x ≤ (n : ℚ)) : jsRound x ≤ n := by
  unfold jsRound
  have : (⌊x + 1 / 2⌋ : ℚ) ≤ x + 1 / 2 := Int.floor_le _
  have hlt : ⌊x + 1 / 2⌋ < n + 1 := by
    rw [Int.floor_lt]
    push_cast
    linarith
  omega

lemma hue2rgb_affine (p q t : ℚ) : hue2rgb p q t = p + (q - p) * hue2rgb 0 1 t := by
  unfold hue2rgb
  rcases lt_or_le t 0 with h1 | h1
  · simp only [if_pos h1]
    rcases lt_or_le 1 (t + 1) with h2 | h2
    · simp only [if_pos h2]
      split_ifs <;> ring
    · simp only [if_neg (not_lt.mpr h2)]
      split_ifs <;> ring
  · simp only [if_neg (not_lt.mpr h1)]
    rcases lt_or_le 1 t with h2 | h2
    · simp only [if_pos h2]
      split_ifs <;> ring
    · simp only [if_neg (not_lt.mpr h2)]
      split_ifs <;> ring

lemma hue01_eval_nowrap (t : ℚ) (h0 : 0 ≤ t) (h1 : t ≤ 1) :
    hue2rgb 0 1 t =
      (if t < 1 / 6 then 6 * t else if t < 1 / 2 then 1
        else if t < 2 / 3 then (2 / 3 - t) * 6 else 0) := by
  simp only [hue2rgb]
  rw [if_neg (show ¬t < 0 by linarith), if_neg (show ¬t > 1 by linarith)]
  split_ifs <;> ring

lemma hue01_mem (t : ℚ) (ha : -(1 / 3) ≤ t) (hb : t ≤ 4 / 3) :
    0 ≤ hue2rgb 0 1 t ∧ hue2rgb 0 1 t ≤ 1 := by
  simp only [hue2rgb]
  split_ifs <;> constructor <;> linarith

lemma hue2rgb_shift_neg (p q t : ℚ) (h0 : -1 ≤ t) (h1 : t < 0) :
    hue2rgb p q t = hue2rgb p q (t + 1) := by
  simp only [hue2rgb]
  rw [if_pos h1, if_neg (show ¬t + 1 > 1 by linarith), if_neg (show ¬t + 1 < 0 by linarith),
    if_neg (show ¬t + 1 > 1 by linarith)]

lemma hue2rgb_shift_pos (p q t : ℚ) (h0 : 1 < t) (h1 : t ≤ 2) :
    hue2rgb p q t = hue2rgb p q (t - 1) := by
  simp only [hue2rgb]
  rw [if_neg (show ¬t < 0 by linarith), if_pos (show t > 1 from h0),
    if_neg (show ¬t - 1 < 0 by linarith), if_neg (show ¬t - 1 > 1 by linarith)]

set_option maxHeartbeats 1600000 in
lemma hue01_lipschitz_ordered (t t' : ℚ) (ha : -(1 / 3) ≤ t') (hb : t ≤ 4 / 3)
    (hle : t' ≤ t) (hdelta : t - t' ≤ 1 / 6) :
    |hue2rgb 0 1 t - hue2rgb 0 1 t'| ≤ 6 * (t - t') := by
  rcases lt_or_le t' 0 with hn' | hp'
  · rcases lt_or_le t 0 with hn | hp
    · rw [hue2rgb_shift_neg 0 1 t (by linarith) hn,
        hue2rgb_shift_neg 0 1 t' (by linarith) hn']
      rw [hue01_eval_nowrap (t + 1) (by linarith) (by linarith),
        hue01_eval_nowrap (t' + 1) (by linarith) (by linarith)]
      split_ifs <;> (rw [abs_le]; constructor <;> linarith)
    · rw [hue2rgb_shift_neg 0 1 t' (by linarith) hn']
      rw [hue01_eval_nowrap t (by linarith) (by linarith),
        hue01_eval_nowrap (t' + 1) (by linarith) (by linarith)]
      split_ifs <;> (rw [abs_le]; constructor <;> linarith)
  · rcases le_or_lt t 1 with hp1 | hg1
    · rw [hue01_eval_nowrap t (by linarith) (by linarith),
        hue01_eval_nowrap t' (by linarith) (by linarith)]
      split_ifs <;> (rw [abs_le]; constructor <;> linarith)
    · rcases le_or_lt t' 1 with ht1 | ht1
      · rw [hue2rgb_shift_pos 0 1 t hg1 (by linarith)]
        rw [hue01_eval_nowrap (t - 1) (by linarith) (by linarith),
          hue01_eval_nowrap t' (by linarith) ht1]
        split_ifs <;> (rw [abs_le]; constructor <;> linarith)
      · rw [hue2rgb_shift_pos 0 1 t hg1 (by linarith),
          hue2rgb_shift_pos 0 1 t' ht1 (by linarith)]
        rw [hue01_eval_nowrap (t - 1) (by linarith) (by linarith),
          hue01_eval_nowrap (t' - 1) (by linarith) (by linarith)]
        split_ifs <;> (rw [abs_le]; constructor <;> linarith)

lemma hue01_lipschitz (t t' : ℚ) (ha : -(1 / 3) ≤ t) (hb : t ≤ 4 / 3)
    (ha' : -(1 / 3) ≤ t') (hb' : t' ≤ 4 / 3) (hdelta : |t - t'| ≤ 1 / 6) :
    |hue2rgb 0 1 t - hue2rgb 0 1 t'| ≤ 6 * |t - t'| := by
  rw [abs_le] at hdelta
  rcases le_total t' t with h | h
  · rw [abs_of_nonneg (show (0:ℚ) ≤ t - t' by linarith)]
    exact hue01_lipschitz_ordered t t' ha' hb h hdelta.2
  · rw [abs_sub_comm t t', abs_of_nonneg (show (0:ℚ) ≤ t' - t by linarith)]
    calc |hue2rgb 0 1 t - hue2rgb 0 1 t'|
        = |hue2rgb 0 1 t' - hue2rgb 0 1 t| := abs_sub_comm _ _
      _ ≤ 6 * (t' - t) := hue01_lipschitz_ordered t' t ha hb' h (by linarith)

end RefSheet

namespace RefSheet

set_option maxHeartbeats 1000000 in
lemma hue_exact_case_r (rn gn bn h0 : ℚ)
    (hg1 : gn ≤ 1) (hb0 : 0 ≤ bn)
    (hcr : max rn (max gn bn) = rn)
    (hd : max rn (max gn bn) - min rn (min gn bn) ≠ 0)
    (hh : h0 = ((gn - bn) / (max rn (max gn bn) - min rn (min gn bn)) +
        (if gn < bn then 6 else 0)) / 6) :
    (0 ≤ h0 ∧ h0 < 1) ∧
    hue2rgb (min rn (min gn bn)) (max rn (max gn bn)) (h0 + 1 / 3) = rn ∧
    hue2rgb (min rn (min gn bn)) (max rn (max gn bn)) h0 = gn ∧
    hue2rgb (min rn (min gn bn)) (max rn (max gn bn)) (h0 - 1 / 3) = bn := by
  have hgle : gn ≤ max rn (max gn bn) := le_max_of_le_right (le_max_left _ _)
  have hble : bn ≤ max rn (max gn bn) := le_max_of_le_right (le_max_right _ _)
  have hmn_le_g : min rn (min gn bn) ≤ gn := le_trans (min_le_right _ _) (min_le_left _ _)
  have hmn_le_b : min rn (min gn bn) ≤ bn := le_trans (min_le_right _ _) (min_le_right _ _)
  set mx := max rn (max gn bn) with hmx
  set mn := min rn (min gn bn) with hmn
  have hdpos : (0:ℚ) < mx - mn := (by linarith : (0:ℚ) ≤ mx - mn).lt_of_ne (Ne.symm hd)
  set d := mx - mn with hdd
  set e := (gn - bn) / d with hedef
  have hde : d * e = gn - bn := by
    rw [hedef]
    field_simp
  by_cases hgb : gn < bn
  · -- second hue sector of the red case: gn < bn, hue in (5/6, 1)
    have hmng : mn = gn := by
      rw [hmn, min_eq_right (by rw [min_eq_left hgb.le]; linarith), min_eq_left hgb.le]
    have he0 : e < 0 := div_neg_of_neg_of_pos (by linarith) hdpos
    have he1 : -1 ≤ e := by
      rw [hedef, le_div_iff hdpos]
      linarith
    rw [hh, if_pos hgb]
    refine ⟨⟨by linarith, by linarith⟩, ?_, ?_, ?_⟩
    · rw [hue2rgb_affine,
        hue2rgb_shift_pos 0 1 ((e + 6) / 6 + 1 / 3) (by linarith) (by linarith),
        hue01_eval_nowrap ((e + 6) / 6 + 1 / 3 - 1) (by linarith) (by linarith),
        if_neg (by intro hcon; linarith), if_pos (by linarith)]
      have : rn = mx := hcr.symm
      linarith
    · rw [hue2rgb_affine,
        hue01_eval_nowrap ((e + 6) / 6) (by linarith) (by linarith),
        if_neg (by intro hcon; linarith), if_neg (by intro hcon; linarith),
        if_neg (by intro hcon; linarith)]
      linarith
    · rw [hue2rgb_affine,
        hue01_eval_nowrap ((e + 6) / 6 - 1 / 3) (by linarith) (by linarith),
        if_neg (by intro hcon; linarith), if_neg (by intro hcon; linarith),
        if_pos (by linarith)]
      linear_combination -hde + hmng
  · -- first hue sector of the red case: gn ≥ bn, hue in [0, 1/6]
    have hble2 : bn ≤ gn := le_of_not_lt hgb
    have hmnb : mn = bn := by
      rw [hmn, min_eq_right (by rw [min_eq_right hble2]; linarith), min_eq_right hble2]
    have he0 : 0 ≤ e := div_nonneg (by linarith) hdpos.le
    have he1 : e ≤ 1 := by
      rw [hedef, div_le_one hdpos]
      linarith
    rw [hh, if_neg hgb]
    refine ⟨⟨by linarith, by linarith⟩, ?_, ?_, ?_⟩
    · by_cases hee : e < 1
      · rw [hue2rgb_affine,
          hue01_eval_nowrap ((e + 0) / 6 + 1 / 3) (by linarith) (by linarith),
          if_neg (by intro hcon; linarith), if_pos (by linarith)]
        have : rn = mx := hcr.symm
        linarith
      · have hee1 : e = 1 := le_antisymm he1 (le_of_not_lt hee)
        rw [hee1]
        rw [hue2rgb_affine,
          hue01_eval_nowrap ((1 + 0) / 6 + 1 / 3) (by norm_num) (by norm_num),
          if_neg (by norm_num), if_neg (by norm_num), if_pos (by norm_num)]
        have : rn = mx := hcr.symm
        norm_num
        linarith
    · by_cases hee : e < 1
      · rw [hue2rgb_affine,
          hue01_eval_nowrap ((e + 0) / 6) (by linarith) (by linarith),
          if_pos (by linarith)]
        linear_combination (3 : ℚ) / 3 * hde + hmnb
      · have hee1 : e = 1 := le_antisymm he1 (le_of_not_lt hee)
        have hde1 : d = gn - bn := by
          rw [hee1] at hde
          linarith
        rw [hee1]
        rw [hue2rgb_affine,
          hue01_eval_nowrap ((1 + 0) / 6) (by norm_num) (by norm_num),
          if_neg (by norm_num), if_pos (by norm_num)]
        norm_num
        linarith
    · rw [hue2rgb_affine,
        hue2rgb_shift_neg 0 1 ((e + 0) / 6 - 1 / 3) (by linarith) (by linarith),
        hue01_eval_nowrap ((e + 0) / 6 - 1 / 3 + 1) (by linarith) (by linarith),
        if_neg (by intro hcon; linarith), if_neg (by intro hcon; linarith),
        if_neg (by intro hcon; linarith)]
      linarith

end RefSheet

namespace RefSheet

set_option maxHeartbeats 1000000 in
lemma hue_exact_case_g (rn gn bn h0 : ℚ)
    (hcg : max rn (max gn bn) = gn)
    (hd : max rn (max gn bn) - min rn (min gn bn) ≠ 0)
    (hh : h0 = ((bn - rn) / (max rn (max gn bn) - min rn (min gn bn)) + 2) / 6) :
    (0 ≤ h0 ∧ h0 < 1) ∧
    hue2rgb (min rn (min gn bn)) (max rn (max gn bn)) (h0 + 1 / 3) = rn ∧
    hue2rgb (min rn (min gn bn)) (max rn (max gn bn)) h0 = gn ∧
    hue2rgb (min rn (min gn bn)) (max rn (max gn bn)) (h0 - 1 / 3) = bn := by
  have hrle : rn ≤ max rn (max gn bn) := le_max_left _ _
  have hble : bn ≤ max rn (max gn bn) := le_max_of_le_right (le_max_right _ _)
  have hmn_le_r : min rn (min gn bn) ≤ rn := min_le_left _ _
  have hmn_le_b : min rn (min gn bn) ≤ bn := le_trans (min_le_right _ _) (min_le_right _ _)
  have hbg : bn ≤ gn := by
    calc bn ≤ max rn (max gn bn) := hble
    _ = gn := hcg
  set mx := max rn (max gn bn) with hmx
  set mn := min rn (min gn bn) with hmn
  have hdpos : (0:ℚ) < mx - mn := (by linarith : (0:ℚ) ≤ mx - mn).lt_of_ne (Ne.symm hd)
  set d := mx - mn with hdd
  set e := (bn - rn) / d with hedef
  have hde : d * e = bn - rn := by
    rw [hedef]
    field_simp
  have hmn2 : mn = min rn bn := by
    rw [hmn, min_eq_right hbg]
  have he1 : -1 ≤ e := by
    rw [hedef, le_div_iff hdpos]
    linarith
  have he2 : e ≤ 1 := by
    rw [hedef, div_le_one hdpos]
    linarith
  rw [hh]
  refine ⟨⟨by linarith, by linarith⟩, ?_, ?_, ?_⟩
  · by_cases hbr : bn < rn
    · have hmnb : mn = bn := by rw [hmn2, min_eq_right hbr.le]
      have he0 : e < 0 := div_neg_of_neg_of_pos (by linarith) hdpos
      rw [hue2rgb_affine,
        hue01_eval_nowrap ((e + 2) / 6 + 1 / 3) (by linarith) (by linarith),
        if_neg (by intro hcon; linarith), if_neg (by intro hcon; linarith),
        if_pos (by linarith)]
      linear_combination -hde + hmnb
    · have hmnr : mn = rn := by rw [hmn2, min_eq_left (le_of_not_lt hbr)]
      have he0 : 0 ≤ e := div_nonneg (by linarith [le_of_not_lt hbr]) hdpos.le
      rw [hue2rgb_affine,
        hue01_eval_nowrap ((e + 2) / 6 + 1 / 3) (by linarith) (by linarith),
        if_neg (by intro hcon; linarith), if_neg (by intro hcon; linarith),
        if_neg (by intro hcon; linarith)]
      linarith
  · by_cases hee : e < 1
    · rw [hue2rgb_affine,
        hue01_eval_nowrap ((e + 2) / 6) (by linarith) (by linarith),
        if_neg (by intro hcon; linarith), if_pos (by linarith)]
      have : gn = mx := hcg.symm
      linarith
    · have hee1 : e = 1 := le_antisymm he2 (le_of_not_lt hee)
      rw [hee1]
      rw [hue2rgb_affine,
        hue01_eval_nowrap ((1 + 2) / 6) (by norm_num) (by norm_num),
        if_neg (by norm_num), if_neg (by norm_num), if_pos (by norm_num)]
      have : gn = mx := hcg.symm
      norm_num
      linarith
  · by_cases hbr : bn < rn
    · have hmnb : mn = bn := by rw [hmn2, min_eq_right hbr.le]
      have he0 : e < 0 := div_neg_of_neg_of_pos (by linarith) hdpos
      rw [hue2rgb_affine,
        hue2rgb_shift_neg 0 1 ((e + 2) / 6 - 1 / 3) (by linarith) (by linarith),
        hue01_eval_nowrap ((e + 2) / 6 - 1 / 3 + 1) (by linarith) (by linarith),
        if_neg (by intro hcon; linarith), if_neg (by intro hcon; linarith),
        if_neg (by intro hcon; linarith)]
      linarith
    · have hmnr : mn = rn := by rw [hmn2, min_eq_left (le_of_not_lt hbr)]
      have he0 : 0 ≤ e := div_nonneg (by linarith [le_of_not_lt hbr]) hdpos.le
      by_cases hee : e < 1
      · rw [hue2rgb_affine,
          hue01_eval_nowrap ((e + 2) / 6 - 1 / 3) (by linarith) (by linarith),
          if_pos (by linarith)]
        linear_combination hde + hmnr
      · have hee1 : e = 1 := le_antisymm he2 (le_of_not_lt hee)
        have hde1 : d = bn - rn := by
          rw [hee1] at hde
          linarith
        rw [hee1]
        rw [hue2rgb_affine,
          hue01_eval_nowrap ((1 + 2) / 6 - 1 / 3) (by norm_num) (by norm_num),
          if_neg (by norm_num), if_pos (by norm_num)]
        norm_num
        linarith

set_option maxHeartbeats 1000000 in
lemma hue_exact_case_b (rn gn bn h0 : ℚ)
    (hcb : max rn (max gn bn) = bn)
    (hd : max rn (max gn bn) - min rn (min gn bn) ≠ 0)
    (hh : h0 = ((rn - gn) / (max rn (max gn bn) - min rn (min gn bn)) + 4) / 6) :
    (0 ≤ h0 ∧ h0 < 1) ∧
    hue2rgb (min rn (min gn bn)) (max rn (max gn bn)) (h0 + 1 / 3) = rn ∧
    hue2rgb (min rn (min gn bn)) (max rn (max gn bn)) h0 = gn ∧
    hue2rgb (min rn (min gn bn)) (max rn (max gn bn)) (h0 - 1 / 3) = bn := by
  have hrle : rn ≤ max rn (max gn bn) := le_max_left _ _
  have hgle : gn ≤ max rn (max gn bn) := le_max_of_le_right (le_max_left _ _)
  have hmn_le_r : min rn (min gn bn) ≤ rn := min_le_left _ _
  have hmn_le_g : min rn (min gn bn) ≤ gn := le_trans (min_le_right _ _) (min_le_left _ _)
  have hgb : gn ≤ bn := by
    calc gn ≤ max rn (max gn bn) := hgle
    _ = bn := hcb
  set mx := max rn (max gn bn) with hmx
  set mn := min rn (min gn bn) with hmn
  have hdpos : (0:ℚ) < mx - mn := (by linarith : (0:ℚ) ≤ mx - mn).lt_of_ne (Ne.symm hd)
  set d := mx - mn with hdd
  set e := (rn - gn) / d with hedef
  have hde : d * e = rn - gn := by
    rw [hedef]
    field_simp
  have hmn2 : mn = min rn gn := by
    rw [hmn, min_eq_left hgb]
  have he1 : -1 ≤ e := by
    rw [hedef, le_div_iff hdpos]
    linarith
  have he2 : e ≤ 1 := by
    rw [hedef, div_le_one hdpos]
    linarith
  rw [hh]
  refine ⟨⟨by linarith, by linarith⟩, ?_, ?_, ?_⟩
  · by_cases hgr : gn < rn
    · have hmng : mn = gn := by rw [hmn2, min_eq_right hgr.le]
      have he0 : 0 < e := div_pos (by linarith) hdpos
      by_cases hee : e < 1
      · rw [hue2rgb_affine,
          hue2rgb_shift_pos 0 1 ((e + 4) / 6 + 1 / 3) (by linarith) (by linarith),
          hue01_eval_nowrap ((e + 4) / 6 + 1 / 3 - 1) (by linarith) (by linarith),
          if_pos (by linarith)]
        linear_combination hde + hmng
      · have hee1 : e = 1 := le_antisymm he2 (le_of_not_lt hee)
        have hde1 : d = rn - gn := by
          rw [hee1] at hde
          linarith
        rw [hee1]
        rw [hue2rgb_affine,
          hue2rgb_shift_pos 0 1 ((1 + 4) / 6 + 1 / 3) (by norm_num) (by norm_num),
          hue01_eval_nowrap ((1 + 4) / 6 + 1 / 3 - 1) (by norm_num) (by norm_num),
          if_neg (by norm_num), if_pos (by norm_num)]
        norm_num
        linarith
    · have hmnr : mn = rn := by rw [hmn2, min_eq_left (le_of_not_lt hgr)]
      have he0 : e ≤ 0 := by
        rw [hedef]
        apply div_nonpos_of_nonpos_of_nonneg (by linarith [le_of_not_lt hgr]) hdpos.le
      rw [hue2rgb_affine,
        hue01_eval_nowrap ((e + 4) / 6 + 1 / 3) (by linarith) (by linarith),
        if_neg (by intro hcon; linarith), if_neg (by intro hcon; linarith),
        if_neg (by intro hcon; linarith)]
      linarith
  · by_cases hgr : gn < rn
    · have hmng : mn = gn := by rw [hmn2, min_eq_right hgr.le]
      have he0 : 0 < e := div_pos (by linarith) hdpos
      rw [hue2rgb_affine,
        hue01_eval_nowrap ((e + 4) / 6) (by linarith) (by linarith),
        if_neg (by intro hcon; linarith), if_neg (by intro hcon; linarith),
        if_neg (by intro hcon; linarith)]
      linarith
    · have hmnr : mn = rn := by rw [hmn2, min_eq_left (le_of_not_lt hgr)]
      have he0 : e ≤ 0 := by
        rw [hedef]
        apply div_nonpos_of_nonpos_of_nonneg (by linarith [le_of_not_lt hgr]) hdpos.le
      by_cases hee : e < 0
      · rw [hue2rgb_affine,
          hue01_eval_nowrap ((e + 4) / 6) (by linarith) (by linarith),
          if_neg (by intro hcon; linarith), if_neg (by intro hcon; linarith),
          if_pos (by linarith)]
        linear_combination -hde + hmnr
      · have hee0 : e = 0 := le_antisymm he0 (le_of_not_lt hee)
        have hde0 : rn = gn := by
          rw [hee0] at hde
          linarith
        rw [hee0]
        rw [hue2rgb_affine,
          hue01_eval_nowrap ((0 + 4) / 6) (by norm_num) (by norm_num),
          if_neg (by norm_num), if_neg (by norm_num), if_neg (by norm_num)]
        norm_num
        linarith
  · by_cases hee : e < 1
    · rw [hue2rgb_affine,
        hue01_eval_nowrap ((e + 4) / 6 - 1 / 3) (by linarith) (by linarith),
        if_neg (by intro hcon; linarith), if_pos (by linarith)]
      have : bn = mx := hcb.symm
      linarith
    · have hee1 : e = 1 := le_antisymm he2 (le_of_not_lt hee)
      rw [hee1]
      rw [hue2rgb_affine,
        hue01_eval_nowrap ((1 + 4) / 6 - 1 / 3) (by norm_num) (by norm_num),
        if_neg (by norm_num), if_neg (by norm_num), if_pos (by norm_num)]
      have : bn = mx := hcb.symm
      norm_num
      linarith

end RefSheet

namespace RefSheet

lemma q_branch_min (l s : ℚ) (h0 : 0 ≤ l) (h1 : l ≤ 1) :
    (if l < 1 / 2 then l * (1 + s) else l + s - l * s) = l + s * min l (1 - l) := by
  split_ifs with h
  · rw [min_eq_left (by linarith)]
    ring
  · rw [min_eq_right (by linarith)]
    ring

lemma min_sub_min_abs_le (l l' : ℚ) :
    |min l (1 - l) - min l' (1 - l')| ≤ |l - l'| := by
  rcases min_cases l (1 - l) with ⟨hm1, hc1⟩ | ⟨hm1, hc1⟩ <;>
    rcases min_cases l' (1 - l') with ⟨hm2, hc2⟩ | ⟨hm2, hc2⟩ <;>
      rw [hm1, hm2] <;>
        rcases abs_cases (l - l') with ⟨ha1, ha2⟩ | ⟨ha1, ha2⟩ <;>
          rw [ha1] <;> rw [abs_le] <;> constructor <;> linarith

lemma smin_diff (l l' s s' : ℚ) (hl : 0 ≤ l) (hl1 : l ≤ 1) (hl' : 0 ≤ l') (hl1' : l' ≤ 1)
    (hs : 0 ≤ s) (hs1 : s ≤ 1) (hs' : 0 ≤ s') :
    |s * min l (1 - l) - s' * min l' (1 - l')| ≤ |l - l'| + 1 / 2 * |s - s'| := by
  have hkey : s * min l (1 - l) - s' * min l' (1 - l') =
      s * (min l (1 - l) - min l' (1 - l')) + min l' (1 - l') * (s - s') := by ring
  rw [hkey]
  have h1 : |s * (min l (1 - l) - min l' (1 - l'))| ≤ |l - l'| := by
    rw [abs_mul, abs_of_nonneg hs]
    calc s * |min l (1 - l) - min l' (1 - l')| ≤ 1 * |min l (1 - l) - min l' (1 - l')| :=
          mul_le_mul_of_nonneg_right hs1 (abs_nonneg _)
    _ = |min l (1 - l) - min l' (1 - l')| := one_mul _
    _ ≤ |l - l'| := min_sub_min_abs_le l l'
  have h2 : |min l' (1 - l') * (s - s')| ≤ 1 / 2 * |s - s'| := by
    rw [abs_mul]
    have hm0 : 0 ≤ min l' (1 - l') := le_min hl' (by linarith)
    have hm2 : min l' (1 - l') ≤ 1 / 2 := by
      rcases min_cases l' (1 - l') with ⟨hm, hc⟩ | ⟨hm, hc⟩ <;> rw [hm] <;> linarith
    rw [abs_of_nonneg hm0]
    exact mul_le_mul_of_nonneg_right hm2 (abs_nonneg _)
  calc |s * (min l (1 - l) - min l' (1 - l')) + min l' (1 - l') * (s - s')| ≤
        |s * (min l (1 - l) - min l' (1 - l'))| + |min l' (1 - l') * (s - s')| := abs_add _ _
  _ ≤ |l - l'| + 1 / 2 * |s - s'| := add_le_add h1 h2

lemma q_exact (mn mx l0 s0 : ℚ) (h0 : 0 ≤ mn) (h1 : mn < mx) (h2 : mx ≤ 1)
    (hl0 : l0 = (mx + mn) / 2)
    (hs0 : s0 = if l0 > 1 / 2 then (mx - mn) / (2 - mx - mn)
      else (mx - mn) / (mx + mn)) :
    (if l0 < 1 / 2 then l0 * (1 + s0) else l0 + s0 - l0 * s0) = mx := by
  subst hl0
  have hmx : (0:ℚ) < mx := lt_of_le_of_lt h0 h1
  have hsum : (0:ℚ) < mx + mn := by linarith
  have hsum2 : (0:ℚ) < 2 - mx - mn := by linarith
  rw [hs0]
  split_ifs with hA hB hB
  · linarith
  · field_simp
    ring
  · field_simp
    ring
  · have hone : mx + mn = 1 := by linarith
    rw [hone]
    norm_num
    linarith

end RefSheet

namespace RefSheet

lemma gray_channel_bound (l0 cn : ℚ) (L out c : ℤ)
    (hLc : |(L : ℚ) - l0 * 100| ≤ 1 / 2)
    (hout : out = jsRound ((L : ℚ) / 100 * 255))
    (hmid : |l0 - cn| ≤ 1 / 200)
    (hc : (c : ℚ) = 255 * cn) :
    |(out : ℚ) - (c : ℚ)| ≤ 5 := by
  have h2 : |(out : ℚ) - (L : ℚ) / 100 * 255| ≤ 1 / 2 := by
    rw [hout]
    exact jsRound_abs_le _
  rw [abs_le] at hLc h2 hmid ⊢
  constructor <;> [nlinarith [hLc.1, hLc.2, h2.1, h2.2, hmid.1, hmid.2];
    nlinarith [hLc.1, hLc.2, h2.1, h2.2, hmid.1, hmid.2]]

lemma channel_bound (pv qv mn mx t t0 chan : ℚ) (out chanInt : ℤ)
    (hp : |pv - mn| ≤ 1 / 80) (hq : |qv - mx| ≤ 1 / 80)
    (hmnmx : mn ≤ mx) (hd1 : mx - mn ≤ 1)
    (ht : -(1 / 3) ≤ t) (ht' : t ≤ 4 / 3) (ht0 : -(1 / 3) ≤ t0) (ht0' : t0 ≤ 4 / 3)
    (hdelta : |t - t0| ≤ 1 / 720)
    (hexact : hue2rgb mn mx t0 = chan)
    (hout : out = jsRound (hue2rgb pv qv t * 255))
    (hchan : (chanInt : ℚ) = 255 * chan) :
    |(out : ℚ) - (chanInt : ℚ)| ≤ 5 := by
  have hWmem := hue01_mem t ht ht'
  have step1 : |hue2rgb pv qv t - hue2rgb mn mx t| ≤ 1 / 80 := by
    have e1 : hue2rgb pv qv t - hue2rgb mn mx t =
        (pv - mn) * (1 - hue2rgb 0 1 t) + (qv - mx) * hue2rgb 0 1 t := by
      rw [hue2rgb_affine pv qv t, hue2rgb_affine mn mx t]
      ring
    rw [e1]
    have b1 : |(pv - mn) * (1 - hue2rgb 0 1 t)| ≤ 1 / 80 * (1 - hue2rgb 0 1 t) := by
      rw [abs_mul, abs_of_nonneg (by linarith [hWmem.2] : (0:ℚ) ≤ 1 - hue2rgb 0 1 t)]
      exact mul_le_mul_of_nonneg_right hp (by linarith [hWmem.2])
    have b2 : |(qv - mx) * hue2rgb 0 1 t| ≤ 1 / 80 * hue2rgb 0 1 t := by
      rw [abs_mul, abs_of_nonneg hWmem.1]
      exact mul_le_mul_of_nonneg_right hq hWmem.1
    calc |(pv - mn) * (1 - hue2rgb 0 1 t) + (qv - mx) * hue2rgb 0 1 t|
        ≤ |(pv - mn) * (1 - hue2rgb 0 1 t)| + |(qv - mx) * hue2rgb 0 1 t| := abs_add _ _
      _ ≤ 1 / 80 * (1 - hue2rgb 0 1 t) + 1 / 80 * hue2rgb 0 1 t := add_le_add b1 b2
      _ = 1 / 80 := by ring
  have step2 : |hue2rgb mn mx t - hue2rgb mn mx t0| ≤ 1 / 120 := by
    have e2 : hue2rgb mn mx t - hue2rgb mn mx t0 =
        (mx - mn) * (hue2rgb 0 1 t - hue2rgb 0 1 t0) := by
      rw [hue2rgb_affine mn mx t, hue2rgb_affine mn mx t0]
      ring
    rw [e2, abs_mul, abs_of_nonneg (by linarith : (0:ℚ) ≤ mx - mn)]
    have hlip := hue01_lipschitz t t0 ht ht' ht0 ht0' (by linarith [hdelta])
    have h6 : 6 * |t - t0| ≤ 1 / 120 := by linarith
    calc (mx - mn) * |hue2rgb 0 1 t - hue2rgb 0 1 t0|
        ≤ (mx - mn) * (6 * |t - t0|) :=
          mul_le_mul_of_nonneg_left (le_trans hlip (le_refl _)) (by linarith)
      _ ≤ 1 * (1 / 120) := by
          apply mul_le_mul hd1 h6 (by positivity) (by norm_num)
      _ = 1 / 120 := by norm_num
  have hfchan : |hue2rgb pv qv t - chan| ≤ 1 / 80 + 1 / 120 := by
    calc |hue2rgb pv qv t - chan|
        ≤ |hue2rgb pv qv t - hue2rgb mn mx t| + |hue2rgb mn mx t - chan| := abs_sub_le _ _ _
      _ = |hue2rgb pv qv t - hue2rgb mn mx t| + |hue2rgb mn mx t - hue2rgb mn mx t0| := by
          rw [hexact]
      _ ≤ 1 / 80 + 1 / 120 := add_le_add step1 step2
  have hround : |((out : ℤ) : ℚ) - hue2rgb pv qv t * 255| ≤ 1 / 2 := by
    rw [hout]
    exact jsRound_abs_le _
  have htotal : |(out : ℚ) - (chanInt : ℚ)| ≤ 93 / 16 := by
    have habs : |hue2rgb pv qv t * 255 - (chanInt : ℚ)| ≤ 255 * (1 / 80 + 1 / 120) := by
      rw [hchan]
      have e3 : hue2rgb pv qv t * 255 - 255 * chan = 255 * (hue2rgb pv qv t - chan) := by ring
      rw [e3, abs_mul, abs_of_nonneg (by norm_num : (0:ℚ) ≤ 255)]
      exact mul_le_mul_of_nonneg_left hfchan (by norm_num)
    calc |(out : ℚ) - (chanInt : ℚ)|
        ≤ |(out : ℚ) - hue2rgb pv qv t * 255| + |hue2rgb pv qv t * 255 - (chanInt : ℚ)| :=
          abs_sub_le _ _ _
      _ ≤ 1 / 2 + 255 * (1 / 80 + 1 / 120) := add_le_add hround habs
      _ = 93 / 16 := by norm_num
  have hZ : |out - chanInt| < 6 := by
    have hcast : ((|out - chanInt| : ℤ) : ℚ) = |(out : ℚ) - (chanInt : ℚ)| := by
      push_cast
      rfl
    have : ((|out - chanInt| : ℤ) : ℚ) < 6 := by
      rw [hcast]
      linarith
    exact_mod_cast this
  have hZ5 : |out - chanInt| ≤ 5 := by omega
  have : ((|out - chanInt| : ℤ) : ℚ) ≤ 5 := by exact_mod_cast hZ5
  calc |(out : ℚ) - (chanInt : ℚ)| = ((|out - chanInt| : ℤ) : ℚ) := by push_cast; rfl
    _ ≤ 5 := this

end RefSheet

namespace RefSheet

lemma jsRound_zero : jsRound 0 = 0 := by
  unfold jsRound
  norm_num

set_option maxHeartbeats 4000000 in
/-- C2 (amended): for every RGB triple with integer channels in [0,255], the
conversions succeed and every channel of hslToRgb (rgbToHsl rgb) differs from
the corresponding channel of rgb by at most 5 (the claimed bound of 1 is
refuted by rgb_roundtrip_cex). -/
theorem rgbToHsl_hslToRgb_roundtrip (r g b : ℤ)
    (hr0 : 0 ≤ r) (hr1 : r ≤ 255) (hg0 : 0 ≤ g) (hg1 : g ≤ 255)
    (hb0 : 0 ≤ b) (hb1 : b ≤ 255) :
    ∃ hsl rgb2, rgbToHsl ⟨(r : ℚ), (g : ℚ), (b : ℚ)⟩ = Except.ok hsl ∧
      hslToRgb hsl = Except.ok rgb2 ∧
      |rgb2.r - (r : ℚ)| ≤ 5 ∧ |rgb2.g - (g : ℚ)| ≤ 5 ∧ |rgb2.b - (b : ℚ)| ≤ 5 := by
  have hR0 : (0:ℚ) ≤ (r:ℚ) := by exact_mod_cast hr0
  have hR1 : (r:ℚ) ≤ 255 := by exact_mod_cast hr1
  have hG0 : (0:ℚ) ≤ (g:ℚ) := by exact_mod_cast hg0
  have hG1 : (g:ℚ) ≤ 255 := by exact_mod_cast hg1
  have hB0 : (0:ℚ) ≤ (b:ℚ) := by exact_mod_cast hb0
  have hB1 : (b:ℚ) ≤ 255 := by exact_mod_cast hb1
  have hvalid : isValidRgb ⟨(r : ℚ), (g : ℚ), (b : ℚ)⟩ = true := by
    simp only [isValidRgb, decide_eq_true_eq]
    exact ⟨hR0, hR1, hG0, hG1, hB0, hB1⟩
  simp only [rgbToHsl, hvalid, if_true]
  set rn := (r : ℚ) / 255 with hrndef
  set gn := (g : ℚ) / 255 with hgndef
  set bn := (b : ℚ) / 255 with hbndef
  set mx := max rn (max gn bn) with hmxdef
  set mn := min rn (min gn bn) with hmndef
  set l0 := (mx + mn) / 2 with hl0def
  have hrn0 : 0 ≤ rn := by rw [hrndef]; positivity
  have hgn0 : 0 ≤ gn := by rw [hgndef]; positivity
  have hbn0 : 0 ≤ bn := by rw [hbndef]; positivity
  have hrn1 : rn ≤ 1 := by rw [hrndef, div_le_one (by norm_num : (0:ℚ) < 255)]; linarith
  have hgn1 : gn ≤ 1 := by rw [hgndef, div_le_one (by norm_num : (0:ℚ) < 255)]; linarith
  have hbn1 : bn ≤ 1 := by rw [hbndef, div_le_one (by norm_num : (0:ℚ) < 255)]; linarith
  have hrmx : rn ≤ mx := le_max_left _ _
  have hgmx : gn ≤ mx := le_max_of_le_right (le_max_left _ _)
  have hbmx : bn ≤ mx := le_max_of_le_right (le_max_right _ _)
  have hmnr : mn ≤ rn := min_le_left _ _
  have hmng : mn ≤ gn := le_trans (min_le_right _ _) (min_le_left _ _)
  have hmnb : mn ≤ bn := le_trans (min_le_right _ _) (min_le_right _ _)
  have hmn0 : 0 ≤ mn := le_min hrn0 (le_min hgn0 hbn0)
  have hmx1 : mx ≤ 1 := max_le hrn1 (max_le hgn1 hbn1)
  have hmnmx : mn ≤ mx := le_trans hmnr hrmx
  have hl00 : 0 ≤ l0 := by rw [hl0def]; linarith
  have hl01 : l0 ≤ 1 := by rw [hl0def]; linarith
  have hrcast : (r : ℚ) = 255 * rn := by rw [hrndef]; ring
  have hgcast : (g : ℚ) = 255 * gn := by rw [hgndef]; ring
  have hbcast : (b : ℚ) = 255 * bn := by rw [hbndef]; ring
  by_cases hdz : mx - mn = 0
  · -- achromatic: all channels coincide with the midpoint lightness
    rw [if_pos hdz]
    dsimp only
    rw [show (0:ℚ) * 360 = 0 by norm_num, show (0:ℚ) * 100 = 0 by norm_num, jsRound_zero]
    set L := jsRound (l0 * 100) with hLdef
    have hL0 : 0 ≤ L := by
      rw [hLdef]
      exact jsRound_nonneg _ (by linarith only [hl00])
    have hL100 : L ≤ 100 := by
      rw [hLdef]
      apply jsRound_le_of_le
      push_cast
      linarith
    have hvalid2 : isValidHsl ⟨((0:ℤ) : ℚ), ((0:ℤ) : ℚ), (L : ℚ)⟩ = true := by
      simp only [isValidHsl, decide_eq_true_eq]
      norm_num
      exact ⟨by exact_mod_cast hL0, by exact_mod_cast hL100⟩
    have hLc : |(L : ℚ) - l0 * 100| ≤ 1 / 2 := by rw [hLdef]; exact jsRound_abs_le _
    have hback : hslToRgb ⟨((0:ℤ) : ℚ), ((0:ℤ) : ℚ), (L : ℚ)⟩ =
        Except.ok ⟨((jsRound ((L : ℚ) / 100 * 255) : ℤ) : ℚ),
          ((jsRound ((L : ℚ) / 100 * 255) : ℤ) : ℚ),
          ((jsRound ((L : ℚ) / 100 * 255) : ℤ) : ℚ)⟩ := by
      simp only [hslToRgb, hvalid2, if_true]
      rw [if_pos (show ((0:ℤ) : ℚ) / 100 = 0 by norm_num)]
    refine ⟨_, _, rfl, hback, ?_, ?_, ?_⟩ <;> dsimp only
    · exact gray_channel_bound l0 rn L _ r hLc rfl
        (by rw [abs_le, hl0def]; constructor <;> linarith only [hdz, hmnr, hrmx]) hrcast
    · exact gray_channel_bound l0 gn L _ g hLc rfl
        (by rw [abs_le, hl0def]; constructor <;> linarith only [hdz, hmng, hgmx]) hgcast
    · exact gray_channel_bound l0 bn L _ b hLc rfl
        (by rw [abs_le, hl0def]; constructor <;> linarith only [hdz, hmnb, hbmx]) hbcast
  · -- chromatic case
    rw [if_neg hdz]
    dsimp only
    have hdpos : 0 < mx - mn := (sub_nonneg.mpr hmnmx).lt_of_ne (Ne.symm hdz)
    have hsum_pos : 0 < mx + mn := by linarith only [hdpos, hmn0, hmnmx]
    have hsum2_pos : 0 < 2 - mx - mn := by linarith only [hdpos, hmx1, hmnmx]
    set s0 := (if l0 > 1 / 2 then (mx - mn) / (2 - mx - mn) else (mx - mn) / (mx + mn))
      with hs0def
    set h0 := (if mx = rn then
        ((gn - bn) / (mx - mn) + if gn < bn then 6 else 0) / 6
      else if mx = gn then ((bn - rn) / (mx - mn) + 2) / 6
      else ((rn - gn) / (mx - mn) + 4) / 6) with hh0def
    have hs00 : 0 ≤ s0 := by
      rw [hs0def]
      split_ifs <;>
        exact div_nonneg (by linarith only [hdpos]) (by linarith only [hsum_pos, hsum2_pos])
    have hs01 : s0 ≤ 1 := by
      rw [hs0def]
      split_ifs <;> rw [div_le_one (by linarith only [hsum_pos, hsum2_pos])] <;>
        linarith only [hmn0, hmx1]
    have hue_pack : (0 ≤ h0 ∧ h0 < 1) ∧
        hue2rgb mn mx (h0 + 1 / 3) = rn ∧ hue2rgb mn mx h0 = gn ∧
        hue2rgb mn mx (h0 - 1 / 3) = bn := by
      by_cases hcr : mx = rn
      · exact hue_exact_case_r rn gn bn h0 hgn1 hbn0 hcr hdz (by rw [hh0def, if_pos hcr])
      · by_cases hcg : mx = gn
        · exact hue_exact_case_g rn gn bn h0 hcg hdz
            (by rw [hh0def, if_neg hcr, if_pos hcg])
        · have hcb : mx = bn := by
            rcases max_choice rn (max gn bn) with h | h
            · rw [← hmxdef] at h
              exact absurd h hcr
            · rw [← hmxdef] at h
              rcases max_choice gn bn with h2 | h2
              · rw [h2] at h
                exact absurd h hcg
              · rw [h2] at h
                exact h
          exact hue_exact_case_b rn gn bn h0 hcb hdz
            (by rw [hh0def, if_neg hcr, if_neg hcg])
    obtain ⟨⟨hh00, hh01⟩, hexr, hexg, hexb⟩ := hue_pack
    set H := jsRound (h0 * 360) with hHdef
    set S := jsRound (s0 * 100) with hSdef
    set L := jsRound (l0 * 100) with hLdef
    have hH0 : 0 ≤ H := by
      rw [hHdef]
      exact jsRound_nonneg _ (by linarith only [hh00])
    have hH360 : H ≤ 360 := by
      rw [hHdef]; apply jsRound_le_of_le; push_cast; linarith only [hh01]
    have hS0 : 0 ≤ S := by
      rw [hSdef]
      exact jsRound_nonneg _ (by linarith only [hs00])
    have hS100 : S ≤ 100 := by
      rw [hSdef]; apply jsRound_le_of_le; push_cast; linarith only [hs01]
    have hL0 : 0 ≤ L := by rw [hLdef]; exact jsRound_nonneg _ (by linarith)
    have hL100 : L ≤ 100 := by
      rw [hLdef]; apply jsRound_le_of_le; push_cast; linarith only [hl01]
    have hvalid2 : isValidHsl ⟨(H : ℚ), (S : ℚ), (L : ℚ)⟩ = true := by
      simp only [isValidHsl, decide_eq_true_eq]
      refine ⟨?_, ?_, ?_, ?_, ?_, ?_⟩
      · exact_mod_cast hH0
      · exact_mod_cast hH360
      · exact_mod_cast hS0
      · exact_mod_cast hS100
      · exact_mod_cast hL0
      · exact_mod_cast hL100
    have hLc : |(L : ℚ) - l0 * 100| ≤ 1 / 2 := by rw [hLdef]; exact jsRound_abs_le _
    have hSc : |(S : ℚ) - s0 * 100| ≤ 1 / 2 := by rw [hSdef]; exact jsRound_abs_le _
    have hHc : |(H : ℚ) - h0 * 360| ≤ 1 / 2 := by rw [hHdef]; exact jsRound_abs_le _
    by_cases hsz : ((S : ℚ)) / 100 = 0
    · -- rounded saturation is zero: the inverse collapses to gray, but the
      -- original color was already nearly gray
      have hs0small : s0 ≤ 1 / 200 := by
        have hSz : (S : ℚ) = 0 := by
          rcases div_eq_zero_iff.mp hsz with h | h
          · exact h
          · norm_num at h
        rw [hSz, abs_le] at hSc
        linarith only [hSc.1]
      have hdle : mx - mn ≤ s0 := by
        rw [hs0def]
        split_ifs with hcond
        · rw [le_div_iff (by linarith only [hsum2_pos])]
          nlinarith only [mul_nonneg (by linarith only [hdpos] : (0:ℚ) ≤ mx - mn)
            (by rw [hl0def] at hcond
                linarith only [hcond] : (0:ℚ) ≤ mx + mn - 1)]
        · rw [le_div_iff (by linarith only [hsum_pos])]
          nlinarith only [mul_nonneg (by linarith only [hdpos] : (0:ℚ) ≤ mx - mn)
            (by rw [hl0def] at hcond
                push_neg at hcond
                linarith only [hcond] : (0:ℚ) ≤ 1 - (mx + mn))]
      have hback : hslToRgb ⟨(H : ℚ), (S : ℚ), (L : ℚ)⟩ =
          Except.ok ⟨((jsRound ((L : ℚ) / 100 * 255) : ℤ) : ℚ),
            ((jsRound ((L : ℚ) / 100 * 255) : ℤ) : ℚ),
            ((jsRound ((L : ℚ) / 100 * 255) : ℤ) : ℚ)⟩ := by
        simp only [hslToRgb, hvalid2, if_true]
        rw [if_pos hsz]
      refine ⟨_, _, rfl, hback, ?_, ?_, ?_⟩ <;> dsimp only
      · exact gray_channel_bound l0 rn L _ r hLc rfl
          (by rw [abs_le, hl0def]
              constructor <;> linarith only [hdle, hs0small, hmnr, hrmx]) hrcast
      · exact gray_channel_bound l0 gn L _ g hLc rfl
          (by rw [abs_le, hl0def]
              constructor <;> linarith only [hdle, hs0small, hmng, hgmx]) hgcast
      · exact gray_channel_bound l0 bn L _ b hLc rfl
          (by rw [abs_le, hl0def]
              constructor <;> linarith only [hdle, hs0small, hmnb, hbmx]) hbcast
    · -- chromatic inverse
      set ln := (L : ℚ) / 100 with hlndef
      set sn := (S : ℚ) / 100 with hsndef
      set hn := (H : ℚ) / 360 with hhndef
      set qv := (if ln < 1 / 2 then ln * (1 + sn) else ln + sn - ln * sn) with hqvdef
      have hln0 : 0 ≤ ln := by rw [hlndef]; positivity
      have hln1 : ln ≤ 1 := by
        rw [hlndef, div_le_one (by norm_num : (0:ℚ) < 100)]
        exact_mod_cast hL100
      have hsn0 : 0 ≤ sn := by rw [hsndef]; positivity
      have hsn1 : sn ≤ 1 := by
        rw [hsndef, div_le_one (by norm_num : (0:ℚ) < 100)]
        exact_mod_cast hS100
      have hhn0 : 0 ≤ hn := by rw [hhndef]; positivity
      have hhn1 : hn ≤ 1 := by
        rw [hhndef, div_le_one (by norm_num : (0:ℚ) < 360)]
        exact_mod_cast hH360
      have hdl : |ln - l0| ≤ 1 / 200 := by
        rw [abs_le] at hLc ⊢
        rw [hlndef]
        constructor <;> linarith only [hLc.1, hLc.2]
      have hds : |sn - s0| ≤ 1 / 200 := by
        rw [abs_le] at hSc ⊢
        rw [hsndef]
        constructor <;> linarith only [hSc.1, hSc.2]
      have hdh : |hn - h0| ≤ 1 / 720 := by
        rw [abs_le] at hHc ⊢
        rw [hhndef]
        constructor <;> linarith only [hHc.1, hHc.2]
      have hqx : l0 + s0 * min l0 (1 - l0) = mx := by
        rw [← q_branch_min l0 s0 hl00 hl01]
        exact q_exact mn mx l0 s0 hmn0 (by linarith only [hdpos]) hmx1 hl0def hs0def
      have hqvmin : qv = ln + sn * min ln (1 - ln) := by
        rw [hqvdef]
        exact q_branch_min ln sn hln0 hln1
      have hsm := smin_diff ln l0 sn s0 hln0 hln1 hl00 hl01 hsn0 hsn1 hs00
      have habs_l := abs_nonneg (ln - l0)
      have habs_s := abs_nonneg (sn - s0)
      have hq : |qv - mx| ≤ 1 / 80 := by
        have e : qv - mx = (ln - l0) + (sn * min ln (1 - ln) - s0 * min l0 (1 - l0)) := by
          rw [hqvmin, ← hqx]
          ring
        rw [e]
        calc |(ln - l0) + (sn * min ln (1 - ln) - s0 * min l0 (1 - l0))|
            ≤ |ln - l0| + |sn * min ln (1 - ln) - s0 * min l0 (1 - l0)| := abs_add _ _
          _ ≤ 1 / 80 := by linarith only [hsm, hdl, hds, habs_l, habs_s]
      have hp : |2 * ln - qv - mn| ≤ 1 / 80 := by
        have hmnid : mn = l0 - s0 * min l0 (1 - l0) := by
          have h2l : 2 * l0 = mx + mn := by rw [hl0def]; ring
          linarith only [hqx, h2l]
        have e : 2 * ln - qv - mn =
            (ln - l0) - (sn * min ln (1 - ln) - s0 * min l0 (1 - l0)) := by
          rw [hqvmin, hmnid]
          ring
        rw [e, sub_eq_add_neg]
        calc |(ln - l0) + -(sn * min ln (1 - ln) - s0 * min l0 (1 - l0))|
            ≤ |ln - l0| + |-(sn * min ln (1 - ln) - s0 * min l0 (1 - l0))| := abs_add _ _
          _ = |ln - l0| + |sn * min ln (1 - ln) - s0 * min l0 (1 - l0)| := by rw [abs_neg]
          _ ≤ 1 / 80 := by linarith only [hsm, hdl, hds, habs_l, habs_s]
      have hdr : |(hn + 1 / 3) - (h0 + 1 / 3)| ≤ 1 / 720 := by
        rw [show (hn + 1 / 3) - (h0 + 1 / 3) = hn - h0 by ring]
        exact hdh
      have hdb : |(hn - 1 / 3) - (h0 - 1 / 3)| ≤ 1 / 720 := by
        rw [show (hn - 1 / 3) - (h0 - 1 / 3) = hn - h0 by ring]
        exact hdh
      have hback : hslToRgb ⟨(H : ℚ), (S : ℚ), (L : ℚ)⟩ =
          Except.ok ⟨((jsRound (hue2rgb (2 * ln - qv) qv (hn + 1 / 3) * 255) : ℤ) : ℚ),
            ((jsRound (hue2rgb (2 * ln - qv) qv hn * 255) : ℤ) : ℚ),
            ((jsRound (hue2rgb (2 * ln - qv) qv (hn - 1 / 3) * 255) : ℤ) : ℚ)⟩ := by
        simp only [hslToRgb, hvalid2, if_true]
        rw [if_neg hsz]
      refine ⟨_, _, rfl, hback, ?_, ?_, ?_⟩ <;> dsimp only
      · exact channel_bound (2 * ln - qv) qv mn mx (hn + 1 / 3) (h0 + 1 / 3) rn _ r
          hp hq hmnmx (by linarith only [hdpos, hmx1, hmn0])
          (by linarith only [hhn0]) (by linarith only [hhn1])
          (by linarith only [hh00]) (by linarith only [hh01])
          hdr hexr rfl hrcast
      · exact channel_bound (2 * ln - qv) qv mn mx hn h0 gn _ g
          hp hq hmnmx (by linarith only [hdpos, hmx1, hmn0])
          (by linarith only [hhn0]) (by linarith only [hhn1])
          (by linarith only [hh00]) (by linarith only [hh01])
          hdh hexg rfl hgcast
      · exact channel_bound (2 * ln - qv) qv mn mx (hn - 1 / 3) (h0 - 1 / 3) bn _ b
          hp hq hmnmx (by linarith only [hdpos, hmx1, hmn0])
          (by linarith only [hhn0]) (by linarith only [hhn1])
          (by linarith only [hh00]) (by linarith only [hh01])
          hdb hexb rfl hbcast

/-- C2 counterexample: rgbToHsl sends (255, 2, 0) to (0, 100, 50), which
hslToRgb sends to (255, 0, 0); the green channel moves by 2 > 1, refuting the
claimed per-channel bound of 1. -/
theorem rgb_roundtrip_cex :
    rgbToHsl ⟨(255 : ℚ), (2 : ℚ), (0 : ℚ)⟩ = Except.ok ⟨0, 100, 50⟩ ∧
    hslToRgb ⟨(0 : ℚ), (100 : ℚ), (50 : ℚ)⟩ = Except.ok ⟨255, 0, 0⟩ ∧
    ¬ (|(0 : ℚ) - 2| ≤ 1) := by
  refine ⟨?_, ?_, by norm_num⟩
  · norm_num [rgbToHsl, isValidRgb, jsRound]
  · norm_num [hslToRgb, isValidHsl, hue2rgb, jsRound]

/-- C2 witness: the round-trip theorem instantiated at the concrete triple
(255, 2, 0). -/
theorem rgbToHsl_hslToRgb_roundtrip_witness :
    ∃ hsl rgb2, rgbToHsl ⟨((255 : ℤ) : ℚ), ((2 : ℤ) : ℚ), ((0 : ℤ) : ℚ)⟩ = Except.ok hsl ∧
      hslToRgb hsl = Except.ok rgb2 ∧
      |rgb2.r - ((255 : ℤ) : ℚ)| ≤ 5 ∧ |rgb2.g - ((2 : ℤ) : ℚ)| ≤ 5 ∧
      |rgb2.b - ((0 : ℤ) : ℚ)| ≤ 5 :=
  rgbToHsl_hslToRgb_roundtrip 255 2 0 (by decide) (by decide) (by decide) (by decide)
    (by decide) (by decide)

end RefSheet

namespace RefSheet

/-! ## Color extraction (src/utils/colorExtraction.ts)

The browser state that `colorExtraction.ts` reads — the image element, its
decode status, and the canvas pixel sampler — is modelled by an explicit
`HTMLImageElement` record, and the module-global `colorCache` Map by an
insertion-ordered entry list threaded through each function. -/

/-- `ColorInfo` record (src/types): hex string plus RGB and HSL forms. -/
structure ColorInfo where
  hex : String
  rgb : RGB
  hsl : HSL
deriving DecidableEq

/-- `ColorExtractionError`: a message and an optional wrapped cause. -/
inductive ColorExtractionError where
  | mk (message : String) (cause : Option ColorExtractionError)

/-- `ImageDimensions` record (src/types). -/
structure ImageDimensions where
  width : ℤ
  height : ℤ
deriving DecidableEq

/-- The observable state of an `HTMLImageElement`: its `src` URL, the four
dimension properties, whether it is already `complete`, whether a pending
load (the `load`/`error` events) and the `drawImage` call succeed, and the
byte channels `getImageData` returns at each coordinate once drawn. -/
structure HTMLImageElement where
  src : String
  naturalWidth : ℤ
  naturalHeight : ℤ
  width : ℤ
  height : ℤ
  complete : Bool
  loadSucceeds : Bool
  drawSucceeds : Bool
  pixel : ℤ → ℤ → Fin 256 × Fin 256 × Fin 256

/-- `ColorExtractionCache.generateKey`. -/
def generateKey (imageUrl : String) (x y : ℤ) : String :=
  imageUrl ++ ":" ++ toString x ++ ":" ++ toString y

/-- The cache `Map<string, ColorInfo>` as its insertion-ordered entry list. -/
abbrev CacheMap := List (String × ColorInfo)

/-- Capacity `maxSize` of `ColorExtractionCache`. -/
def maxCacheSize : ℕ := 100

/-- `ColorExtractionCache.get`. -/
def cacheGet (cache : CacheMap) (imageUrl : String) (x y : ℤ) : Option ColorInfo :=
  (cache.find? fun e => e.1 == generateKey imageUrl x y).map Prod.snd

/-- JS `Map.set` on the insertion-ordered entry list: update in place when
the key is present (keeping its position), append otherwise. -/
def mapSet (cache : CacheMap) (k : String) (v : ColorInfo) : CacheMap :=
  if cache.any fun e => e.1 == k then
    cache.map fun e => if e.1 == k then (k, v) else e
  else cache ++ [(k, v)]

/-- JS `Map.delete` of a key: remove its entry. -/
def mapDelete (cache : CacheMap) (k : String) : CacheMap :=
  cache.eraseP fun e => e.1 == k

/-- `ColorExtractionCache.set`: when the cache is full, delete the first
insertion-order key, then insert. -/
def cacheSet (cache : CacheMap) (imageUrl : String) (x y : ℤ) (ci : ColorInfo) : CacheMap :=
  let key := generateKey imageUrl x y
  let evicted :=
    if maxCacheSize ≤ cache.length then
      match cache with
      | [] => cache
      | e :: _ => mapDelete cache e.1
    else cache
  mapSet evicted key ci

/-- `getColorCacheSize`. -/
def getColorCacheSize (cache : CacheMap) : ℕ := cache.length

/-- `clearColorCache`: the cache becomes empty. -/
def clearColorCache : CacheMap := []

/-- Embedding of `validateCoordinates`, x checked before y. -/
def validateCoordinates (x y : ℤ) (d : ImageDimensions) : Except ColorExtractionError Unit :=
  if x < 0 ∨ d.width ≤ x then
    Except.error (ColorExtractionError.mk
      ("X coordinate " ++ toString x ++ " is out of bounds. Image width: " ++ toString d.width)
      none)
  else if y < 0 ∨ d.height ≤ y then
    Except.error (ColorExtractionError.mk
      ("Y coordinate " ++ toString y ++ " is out of bounds. Image height: " ++ toString d.height)
      none)
  else Except.ok ()

/-- Embedding of `createCanvasFromImage`: the canvas dimensions are
`naturalWidth || width` and `naturalHeight || height` (`||` falls through
on 0); the draw happens immediately when the image is `complete` with
positive `naturalWidth`, and otherwise after the `load` event, whose failure
(the `error` event) rejects with the load message.  The DOM exception wrapped
as the draw error's cause is outside the model. -/
def createCanvasFromImage (img : HTMLImageElement) : Except ColorExtractionError ImageDimensions :=
  let dims : ImageDimensions :=
    { width := if img.naturalWidth = 0 then img.width else img.naturalWidth
      height := if img.naturalHeight = 0 then img.height else img.naturalHeight }
  if img.complete && decide (0 < img.naturalWidth) then
    if img.drawSucceeds then Except.ok dims
    else Except.error (ColorExtractionError.mk "Failed to draw image to canvas" none)
  else if img.loadSucceeds then
    if img.drawSucceeds then Except.ok dims
    else Except.error (ColorExtractionError.mk "Failed to draw image to canvas" none)
  else Except.error (ColorExtractionError.mk "Failed to load image for canvas" none)

/-- Embedding of `extractPixelData`: `getImageData` returns byte channels at
the sampled pixel; alpha is ignored. -/
def extractPixelData (img : HTMLImageElement) (x y : ℤ) : RGB :=
  let p := img.pixel x y
  { r := (p.1.val : ℚ), g := (p.2.1.val : ℚ), b := (p.2.2.val : ℚ) }

/-- Embedding of `createColorInfo`: build hex and HSL forms, wrapping any
conversion failure. -/
def createColorInfo (rgb : RGB) : Except ColorExtractionError ColorInfo :=
  match rgbToHex rgb, rgbToHsl rgb with
  | Except.ok hexv, Except.ok hslv => Except.ok { hex := hexv, rgb := rgb, hsl := hslv }
  | _, _ =>
    Except.error (ColorExtractionError.mk "Failed to convert RGB to color information" none)

/-- Embedding of `extractColorFromImage`, explicit in the global cache state:
the result of the call together with the cache it leaves behind. -/
def extractColorFromImage (cache : CacheMap) (img : HTMLImageElement) (x y : ℤ) :
    Except ColorExtractionError ColorInfo × CacheMap :=
  match cacheGet cache img.src x y with
  | some cached => (Except.ok cached, cache)
  | none =>
    match createCanvasFromImage img with
    | Except.error e => (Except.error e, cache)
    | Except.ok dims =>
      match validateCoordinates x y dims with
      | Except.error e => (Except.error e, cache)
      | Except.ok _ =>
        match createColorInfo (extractPixelData img x y) with
        | Except.error e => (Except.error e, cache)
        | Except.ok colorInfo => (Except.ok colorInfo, cacheSet cache img.src x y colorInfo)

/-- The `for (const coord of coordinates)` loop of `extractMultipleColors`:
per coordinate, a cache hit is pushed directly; otherwise validation,
extraction and conversion run, any failure aborting the whole call wrapped
in the per-coordinate message. -/
def extractMultipleLoop (img : HTMLImageElement) (dims : ImageDimensions)
    (cache : CacheMap) (coordinates : List (ℤ × ℤ)) (results : List ColorInfo) :
    Except ColorExtractionError (List ColorInfo) × CacheMap :=
  match coordinates with
  | [] => (Except.ok results.reverse, cache)
  | coord :: rest =>
    match cacheGet cache img.src coord.1 coord.2 with
    | some cached => extractMultipleLoop img dims cache rest (cached :: results)
    | none =>
      match validateCoordinates coord.1 coord.2 dims with
      | Except.error e =>
        (Except.error (ColorExtractionError.mk
          ("Failed to extract color at coordinates (" ++ toString coord.1 ++ ", " ++
            toString coord.2 ++ ")") (some e)), cache)
      | Except.ok _ =>
        match createColorInfo (extractPixelData img coord.1 coord.2) with
        | Except.error e =>
          (Except.error (ColorExtractionError.mk
            ("Failed to extract color at coordinates (" ++ toString coord.1 ++ ", " ++
              toString coord.2 ++ ")") (some e)), cache)
        | Except.ok colorInfo =>
          extractMultipleLoop img dims (cacheSet cache img.src coord.1 coord.2 colorInfo) rest
            (colorInfo :: results)

/-- Embedding of `extractMultipleColors`: one canvas for the whole batch,
then the per-coordinate loop. -/
def extractMultipleColors (cache : CacheMap) (img : HTMLImageElement)
    (coordinates : List (ℤ × ℤ)) :
    Except ColorExtractionError (List ColorInfo) × CacheMap :=
  match createCanvasFromImage img with
  | Except.error e => (Except.error e, cache)
  | Except.ok dims => extractMultipleLoop img dims cache coordinates []

/-- A mutation of the global cache: `colorCache.set` or `clearColorCache`
(`get` and `size` read without changing the state). -/
inductive CacheOp where
  | set (imageUrl : String) (x : ℤ) (y : ℤ) (colorInfo : ColorInfo)
  | clear

/-- Apply one cache mutation. -/
def applyCacheOp (cache : CacheMap) : CacheOp → CacheMap
  | CacheOp.set u x y ci => cacheSet cache u x y ci
  | CacheOp.clear => clearColorCache

/-- The key `ColorExtractionCache.set` derives from one insertion request. -/
def requestKey (t : (String × ℤ × ℤ) × ColorInfo) : String :=
  generateKey t.1.1 t.1.2.1 t.1.2.2

/-- Run a list of insertion requests through `ColorExtractionCache.set`. -/
def insertAll (cache : CacheMap) (ts : List ((String × ℤ × ℤ) × ColorInfo)) : CacheMap :=
  ts.foldl (fun c t => cacheSet c t.1.1 t.1.2.1 t.1.2.2 t.2) cache


/-- A decodable 100 x 100 test element at src "pic" with a constant pixel. -/
def testImage : HTMLImageElement :=
  { src := "pic", naturalWidth := 100, naturalHeight := 100, width := 100, height := 100,
    complete := true, loadSucceeds := true, drawSucceeds := true,
    pixel := fun _ _ => (⟨10, by norm_num⟩, ⟨20, by norm_num⟩, ⟨30, by norm_num⟩) }

/-- A 10 x 10 element sharing testImage's src. -/
def testImageSmall : HTMLImageElement :=
  { testImage with naturalWidth := 10, naturalHeight := 10, width := 10, height := 10 }

/-- A concrete ColorInfo used to populate test caches. -/
def ciRed : ColorInfo := ⟨"#FF0000", ⟨255, 0, 0⟩, ⟨0, 100, 50⟩⟩

lemma extractPixelData_valid (img : HTMLImageElement) (x y : ℤ) :
    isValidRgb (extractPixelData img x y) = true := by
  unfold extractPixelData isValidRgb
  have h1 : ((img.pixel x y).1.val : ℚ) ≤ 255 := by
    exact_mod_cast Nat.le_of_lt_succ (img.pixel x y).1.isLt
  have h2 : ((img.pixel x y).2.1.val : ℚ) ≤ 255 := by
    exact_mod_cast Nat.le_of_lt_succ (img.pixel x y).2.1.isLt
  have h3 : ((img.pixel x y).2.2.val : ℚ) ≤ 255 := by
    exact_mod_cast Nat.le_of_lt_succ (img.pixel x y).2.2.isLt
  simp only [decide_eq_true_eq]
  exact ⟨by positivity, h1, by positivity, h2, by positivity, h3⟩

lemma createColorInfo_ok (rgb : RGB) (h : isValidRgb rgb = true) :
    ∃ ci, createColorInfo rgb = Except.ok ci := by
  unfold createColorInfo rgbToHex rgbToHsl
  simp only [h, if_true]
  exact ⟨_, rfl⟩

lemma validateCoordinates_ok (x y : ℤ) (d : ImageDimensions)
    (hx0 : 0 ≤ x) (hx1 : x < d.width) (hy0 : 0 ≤ y) (hy1 : y < d.height) :
    validateCoordinates x y d = Except.ok () := by
  unfold validateCoordinates
  rw [if_neg (by push_neg; exact ⟨hx0, hx1⟩), if_neg (by push_neg; exact ⟨hy0, hy1⟩)]

lemma cacheGet_eq_none_iff (cache : CacheMap) (u : String) (x y : ℤ) :
    cacheGet cache u x y = none ↔ ∀ e ∈ cache, e.1 ≠ generateKey u x y := by
  simp [cacheGet, List.find?_eq_none]

lemma cacheGet_mapSet_none (cache : CacheMap) (k : String) (v : ColorInfo)
    (u : String) (x y : ℤ) (hk : k ≠ generateKey u x y)
    (h : cacheGet cache u x y = none) :
    cacheGet (mapSet cache k v) u x y = none := by
  rw [cacheGet_eq_none_iff] at h ⊢
  intro e he
  unfold mapSet at he
  split_ifs at he with hc
  · obtain ⟨a, ha, hae⟩ := List.mem_map.mp he
    by_cases hak : (a.1 == k) = true
    · rw [if_pos hak] at hae
      rw [← hae]
      exact hk
    · rw [if_neg hak] at hae
      rw [← hae]
      exact h a ha
  · rcases List.mem_append.mp he with h1 | h1
    · exact h e h1
    · rw [List.mem_singleton.mp h1]
      exact hk

lemma cacheGet_mapDelete_none (cache : CacheMap) (k u : String) (x y : ℤ)
    (h : cacheGet cache u x y = none) :
    cacheGet (mapDelete cache k) u x y = none := by
  rw [cacheGet_eq_none_iff] at h ⊢
  intro e he
  exact h e ((List.eraseP_sublist cache).subset he)

lemma cacheGet_cacheSet_none (cache : CacheMap) (u : String) (x y x2 y2 : ℤ)
    (ci : ColorInfo) (hk : generateKey u x2 y2 ≠ generateKey u x y)
    (h : cacheGet cache u x y = none) :
    cacheGet (cacheSet cache u x2 y2 ci) u x y = none := by
  unfold cacheSet
  apply cacheGet_mapSet_none _ _ _ _ _ _ hk
  split_ifs
  · cases cache with
    | nil => exact h
    | cons e rest => exact cacheGet_mapDelete_none _ _ _ _ _ h
  · exact h


/-- C10: when the key built from img.src, x, y is in the cache,
extractColorFromImage returns the cached ColorInfo with the cache unchanged,
reaching neither createCanvasFromImage nor validateCoordinates; since the
key uses only the src string, the same holds through any element with the
same src, whatever its dimensions or load state, so such a call never fails
with an out-of-bounds error. -/
theorem extractColorFromImage_cached (cache : CacheMap) (img img2 : HTMLImageElement)
    (x y : ℤ) (ci : ColorInfo) (hsrc : img2.src = img.src)
    (hhit : cacheGet cache img.src x y = some ci) :
    extractColorFromImage cache img2 x y = (Except.ok ci, cache) := by
  unfold extractColorFromImage
  rw [hsrc, hhit]

/-- C10 witness: a cache entry for (pic, 100, 50) written under the
100 x 100 element is served through the 10 x 10 element with the same src,
although (100, 50) is far outside the latter. -/
theorem extractColorFromImage_cached_witness :
    extractColorFromImage [(generateKey "pic" 100 50, ciRed)] testImageSmall 100 50 =
      (Except.ok ciRed, [(generateKey "pic" 100 50, ciRed)]) :=
  extractColorFromImage_cached _ testImage testImageSmall 100 50 ciRed rfl rfl

/-- C4 (amended): on a cache miss for the key of (img.src, x, y), with an
image whose canvas is created successfully at dimensions dims,
extractColorFromImage fails for x < 0 or x >= dims.width with the error
message reporting the offending x and the width, symmetrically for y (with x
checked first), and succeeds when both coordinates are in bounds. -/
theorem extractColorFromImage_bounds (cache : CacheMap) (img : HTMLImageElement)
    (x y : ℤ) (dims : ImageDimensions)
    (hmiss : cacheGet cache img.src x y = none)
    (hcanvas : createCanvasFromImage img = Except.ok dims) :
    ((x < 0 ∨ dims.width ≤ x) →
      (extractColorFromImage cache img x y).1 = Except.error (ColorExtractionError.mk
        ("X coordinate " ++ toString x ++ " is out of bounds. Image width: " ++
          toString dims.width) none)) ∧
    (0 ≤ x → x < dims.width → (y < 0 ∨ dims.height ≤ y) →
      (extractColorFromImage cache img x y).1 = Except.error (ColorExtractionError.mk
        ("Y coordinate " ++ toString y ++ " is out of bounds. Image height: " ++
          toString dims.height) none)) ∧
    (0 ≤ x → x < dims.width → 0 ≤ y → y < dims.height →
      ∃ ci, (extractColorFromImage cache img x y).1 = Except.ok ci) := by
  unfold extractColorFromImage
  rw [hmiss, hcanvas]
  dsimp only
  refine ⟨?_, ?_, ?_⟩
  · intro hx
    unfold validateCoordinates
    rw [if_pos hx]
  · intro hx0 hx1 hy
    unfold validateCoordinates
    rw [if_neg (by push_neg; exact ⟨hx0, hx1⟩), if_pos hy]
  · intro hx0 hx1 hy0 hy1
    rw [validateCoordinates_ok x y dims hx0 hx1 hy0 hy1]
    obtain ⟨ci, hci⟩ := createColorInfo_ok _ (extractPixelData_valid img x y)
    rw [hci]
    exact ⟨ci, rfl⟩

/-- C4 counterexample: when the key is already cached, an out-of-bounds call
does not fail: under testImage (canvas 100 x 100) the call at x = 200 ≥ 100
returns the cached color. -/
theorem extractColorFromImage_bounds_cex :
    createCanvasFromImage testImage = Except.ok ⟨100, 100⟩ ∧
    (100 : ℤ) ≤ 200 ∧
    (extractColorFromImage [(generateKey "pic" 200 50, ciRed)] testImage 200 50).1 =
      Except.ok ciRed := by
  refine ⟨rfl, by norm_num, rfl⟩

/-- C4 witness: on the 100 x 100 test image with an empty cache, the call at
(100, 50) fails citing x = 100 and width 100, and the call at (99, 99)
succeeds. -/
theorem extractColorFromImage_bounds_witness :
    (extractColorFromImage [] testImage 100 50).1 = Except.error (ColorExtractionError.mk
      ("X coordinate " ++ toString (100 : ℤ) ++ " is out of bounds. Image width: " ++
        toString (100 : ℤ)) none) ∧
    ∃ ci, (extractColorFromImage [] testImage 99 99).1 = Except.ok ci :=
  ⟨(extractColorFromImage_bounds [] testImage 100 50 ⟨100, 100⟩ rfl rfl).1 (by norm_num),
   (extractColorFromImage_bounds [] testImage 99 99 ⟨100, 100⟩ rfl rfl).2.2
     (by norm_num) (by norm_num) (by norm_num) (by norm_num)⟩


lemma extractMultipleLoop_first_bad (img : HTMLImageElement) (dims : ImageDimensions)
    (x0 y0 : ℤ) (e : ColorExtractionError) (post : List (ℤ × ℤ))
    (hbad : validateCoordinates x0 y0 dims = Except.error e) :
    ∀ (pre : List (ℤ × ℤ)) (cache : CacheMap) (acc : List ColorInfo),
      (∀ c ∈ pre, 0 ≤ c.1 ∧ c.1 < dims.width ∧ 0 ≤ c.2 ∧ c.2 < dims.height) →
      (∀ c ∈ pre, generateKey img.src c.1 c.2 ≠ generateKey img.src x0 y0) →
      cacheGet cache img.src x0 y0 = none →
      (extractMultipleLoop img dims cache (pre ++ (x0, y0) :: post) acc).1 =
        Except.error (ColorExtractionError.mk
          ("Failed to extract color at coordinates (" ++ toString x0 ++ ", " ++
            toString y0 ++ ")") (some e)) := by
  intro pre
  induction pre with
  | nil =>
    intro cache acc _ _ hmiss
    rw [List.nil_append]
    unfold extractMultipleLoop
    rw [hmiss, hbad]
  | cons c pre ih =>
    intro cache acc hpre hfresh hmiss
    rw [List.cons_append]
    unfold extractMultipleLoop
    cases hcg : cacheGet cache img.src c.1 c.2 with
    | some cached =>
      exact ih cache (cached :: acc) (fun d hd => hpre d (List.mem_cons_of_mem _ hd))
        (fun d hd => hfresh d (List.mem_cons_of_mem _ hd)) hmiss
    | none =>
      obtain ⟨hx0, hx1, hy0, hy1⟩ := hpre c (List.mem_cons_self _ _)
      dsimp only
      rw [validateCoordinates_ok c.1 c.2 dims hx0 hx1 hy0 hy1]
      obtain ⟨ci, hci⟩ := createColorInfo_ok _ (extractPixelData_valid img c.1 c.2)
      rw [hci]
      exact ih _ (ci :: acc) (fun d hd => hpre d (List.mem_cons_of_mem _ hd))
        (fun d hd => hfresh d (List.mem_cons_of_mem _ hd))
        (cacheGet_cacheSet_none cache img.src x0 y0 c.1 c.2 ci
          (hfresh c (List.mem_cons_self _ _)) hmiss)

/-- C6 (amended): if the coordinate list splits as pre ++ (x0, y0) :: post
where every coordinate of pre is in bounds, (x0, y0) is rejected by
validateCoordinates, its key is not cached and differs from the keys of pre,
then extractMultipleColors fails with the error naming (x0, y0) — the first
offending coordinate — wrapping the out-of-bounds error as its cause, and
the caller receives no partial result list. -/
theorem extractMultipleColors_first_offender (cache : CacheMap) (img : HTMLImageElement)
    (dims : ImageDimensions) (pre post : List (ℤ × ℤ)) (x0 y0 : ℤ)
    (e : ColorExtractionError)
    (hcanvas : createCanvasFromImage img = Except.ok dims)
    (hpre : ∀ c ∈ pre, 0 ≤ c.1 ∧ c.1 < dims.width ∧ 0 ≤ c.2 ∧ c.2 < dims.height)
    (hbad : validateCoordinates x0 y0 dims = Except.error e)
    (hfresh : ∀ c ∈ pre, generateKey img.src c.1 c.2 ≠ generateKey img.src x0 y0)
    (hmiss : cacheGet cache img.src x0 y0 = none) :
    (extractMultipleColors cache img (pre ++ (x0, y0) :: post)).1 =
      Except.error (ColorExtractionError.mk
        ("Failed to extract color at coordinates (" ++ toString x0 ++ ", " ++
          toString y0 ++ ")") (some e)) := by
  unfold extractMultipleColors
  rw [hcanvas]
  exact extractMultipleLoop_first_bad img dims x0 y0 e post hbad pre cache [] hpre hfresh hmiss

/-- C6 counterexample: when the out-of-bounds coordinate's key is cached, the
batch call does not fail: with (200, 50) cached under src pic, the call on
testImage (canvas 100 x 100) returns a full result list. -/
theorem extractMultipleColors_first_offender_cex :
    (100 : ℤ) ≤ 200 ∧
    (extractMultipleColors [(generateKey "pic" 200 50, ciRed)] testImage [(200, 50)]).1 =
      Except.ok [ciRed] := by
  refine ⟨by norm_num, rfl⟩

/-- C6 witness: on testImage with an empty cache and coordinate list
[(1, 1), (200, 50), (2, 2)], the call fails naming (200, 50) and wrapping the
X out-of-bounds error. -/
theorem extractMultipleColors_first_offender_witness :
    (extractMultipleColors [] testImage [(1, 1), (200, 50), (2, 2)]).1 =
      Except.error (ColorExtractionError.mk
        ("Failed to extract color at coordinates (" ++ toString (200 : ℤ) ++ ", " ++
          toString (50 : ℤ) ++ ")")
        (some (ColorExtractionError.mk
          ("X coordinate " ++ toString (200 : ℤ) ++ " is out of bounds. Image width: " ++
            toString (100 : ℤ)) none))) :=
  extractMultipleColors_first_offender [] testImage ⟨100, 100⟩ [(1, 1)] [(2, 2)] 200 50 _
    rfl (by norm_num) rfl (by decide) rfl


lemma mapSet_length_le (cache : CacheMap) (k : String) (v : ColorInfo) :
    (mapSet cache k v).length ≤ cache.length + 1 := by
  unfold mapSet
  split_ifs
  · rw [List.length_map]
    omega
  · rw [List.length_append]
    simp

lemma cacheSet_length_le (cache : CacheMap) (u : String) (x y : ℤ) (ci : ColorInfo)
    (h : cache.length ≤ maxCacheSize) :
    (cacheSet cache u x y ci).length ≤ maxCacheSize := by
  unfold cacheSet
  dsimp only
  split_ifs with hfull
  · cases cache with
    | nil => simp [maxCacheSize] at hfull
    | cons eh rest =>
      dsimp only
      have hdel : mapDelete (eh :: rest) eh.1 = rest := by
        unfold mapDelete
        rw [List.eraseP_cons_of_pos (by simp)]
      rw [hdel]
      have hms := mapSet_length_le rest (generateKey u x y) ci
      have hlen : rest.length + 1 ≤ maxCacheSize := by simpa using h
      omega
  · have hms := mapSet_length_le cache (generateKey u x y) ci
    omega

lemma foldl_applyCacheOp_le (ops : List CacheOp) :
    ∀ cache : CacheMap, cache.length ≤ maxCacheSize →
      (ops.foldl applyCacheOp cache).length ≤ maxCacheSize := by
  induction ops with
  | nil =>
    intro c h
    simpa using h
  | cons op ops ih =>
    intro c h
    rw [List.foldl_cons]
    refine ih _ ?_
    cases op with
    | set u x y ci => exact cacheSet_length_le c u x y ci h
    | clear => simp [applyCacheOp, clearColorCache, maxCacheSize]

lemma insertAll_fresh (ts : List ((String × ℤ × ℤ) × ColorInfo)) :
    ∀ cache : CacheMap,
      cache.length + ts.length ≤ maxCacheSize →
      (∀ t ∈ ts, ∀ e ∈ cache, e.1 ≠ requestKey t) →
      (ts.map requestKey).Nodup →
      insertAll cache ts = cache ++ ts.map (fun t => (requestKey t, t.2)) := by
  induction ts with
  | nil =>
    intro c _ _ _
    simp [insertAll]
  | cons t ts ih =>
    intro c hlen hfresh hnodup
    rw [List.map_cons, List.nodup_cons] at hnodup
    have hstep : cacheSet c t.1.1 t.1.2.1 t.1.2.2 t.2 = c ++ [(requestKey t, t.2)] := by
      unfold cacheSet
      dsimp only
      rw [if_neg (by
        simp only [List.length_cons, maxCacheSize] at hlen ⊢
        omega)]
      unfold mapSet
      rw [if_neg (by
        intro hany
        obtain ⟨e, he, heq⟩ := List.any_eq_true.mp hany
        exact hfresh t (List.mem_cons_self _ _) e he (by simpa using heq))]
      rfl
    calc insertAll c (t :: ts)
        = insertAll (c ++ [(requestKey t, t.2)]) ts := by
          rw [show insertAll c (t :: ts) =
            insertAll (cacheSet c t.1.1 t.1.2.1 t.1.2.2 t.2) ts from rfl, hstep]
      _ = (c ++ [(requestKey t, t.2)]) ++ ts.map (fun t => (requestKey t, t.2)) := by
          refine ih _ ?_ ?_ hnodup.2
          · simp only [List.length_append, List.length_singleton, List.length_cons,
              List.length_nil] at hlen ⊢
            omega
          · intro t2 ht2 e he
            rcases List.mem_append.mp he with h1 | h1
            · exact hfresh t2 (List.mem_cons_of_mem _ ht2) e h1
            · rw [List.mem_singleton.mp h1]
              show requestKey t ≠ requestKey t2
              intro hcontra
              exact hnodup.1 (hcontra ▸ List.mem_map_of_mem requestKey ht2)
      _ = c ++ (t :: ts).map (fun t => (requestKey t, t.2)) := by simp

/-- C5: the extraction cache never exceeds 100 entries after any sequence of
mutations from empty, and eviction is FIFO: after inserting 101 entries with
pairwise distinct generated keys into the empty cache, the size is 100 and
the very first inserted key is no longer present. -/
theorem cache_capacity_fifo (ops : List CacheOp)
    (t0 tlast : (String × ℤ × ℤ) × ColorInfo)
    (ts : List ((String × ℤ × ℤ) × ColorInfo))
    (hts : ts.length = 99)
    (hnodup : ((t0 :: (ts ++ [tlast])).map requestKey).Nodup) :
    getColorCacheSize (ops.foldl applyCacheOp clearColorCache) ≤ maxCacheSize ∧
    getColorCacheSize (insertAll clearColorCache (t0 :: (ts ++ [tlast]))) = maxCacheSize ∧
    cacheGet (insertAll clearColorCache (t0 :: (ts ++ [tlast]))) t0.1.1 t0.1.2.1 t0.1.2.2 =
      none := by
  rw [List.map_cons, List.nodup_cons, List.map_append] at hnodup
  obtain ⟨hk0, htail⟩ := hnodup
  rw [List.mem_append] at hk0
  push_neg at hk0
  obtain ⟨hk0ts, hk0last⟩ := hk0
  have hk0last2 : requestKey t0 ≠ requestKey tlast := by simpa using hk0last
  have hnodts : (ts.map requestKey).Nodup := (List.nodup_append.mp htail).1
  have hdisj := (List.nodup_append.mp htail).2.2
  have hlast_notin : requestKey tlast ∉ ts.map requestKey :=
    fun hmem => hdisj hmem (List.mem_singleton_self _)
  have h0 : insertAll clearColorCache (t0 :: (ts ++ [tlast])) =
      insertAll [(requestKey t0, t0.2)] (ts ++ [tlast]) := by
    rw [show insertAll clearColorCache (t0 :: (ts ++ [tlast])) =
      insertAll (cacheSet [] t0.1.1 t0.1.2.1 t0.1.2.2 t0.2) (ts ++ [tlast]) from rfl]
    rfl
  have hsplit : insertAll [(requestKey t0, t0.2)] (ts ++ [tlast]) =
      cacheSet (insertAll [(requestKey t0, t0.2)] ts)
        tlast.1.1 tlast.1.2.1 tlast.1.2.2 tlast.2 := by
    simp only [insertAll, List.foldl_append, List.foldl_cons, List.foldl_nil]
  have h1 : insertAll [(requestKey t0, t0.2)] ts =
      (requestKey t0, t0.2) :: ts.map (fun t => (requestKey t, t.2)) := by
    have hres := insertAll_fresh ts [(requestKey t0, t0.2)]
      (by simp [hts, maxCacheSize])
      (by
        intro t ht e he
        rw [List.mem_singleton.mp he]
        show requestKey t0 ≠ requestKey t
        intro hcontra
        exact hk0ts (hcontra ▸ List.mem_map_of_mem requestKey ht))
      hnodts
    simpa using hres
  have h2 : cacheSet ((requestKey t0, t0.2) :: ts.map (fun t => (requestKey t, t.2)))
        tlast.1.1 tlast.1.2.1 tlast.1.2.2 tlast.2 =
      ts.map (fun t => (requestKey t, t.2)) ++ [(requestKey tlast, tlast.2)] := by
    unfold cacheSet
    dsimp only
    rw [if_pos (by simp [hts, maxCacheSize])]
    have hdel : mapDelete
        ((requestKey t0, t0.2) :: ts.map (fun t => (requestKey t, t.2)))
        (requestKey t0, t0.2).1 = ts.map (fun t => (requestKey t, t.2)) := by
      unfold mapDelete
      rw [List.eraseP_cons_of_pos (by simp)]
    rw [hdel]
    unfold mapSet
    rw [if_neg (by
      intro hany
      obtain ⟨e, he, heq⟩ := List.any_eq_true.mp hany
      obtain ⟨t, ht, rfl⟩ := List.mem_map.mp he
      have hkey : requestKey t = requestKey tlast := by simpa using heq
      exact hlast_notin (hkey ▸ List.mem_map_of_mem requestKey ht))]
    rfl
  have hfinal : insertAll clearColorCache (t0 :: (ts ++ [tlast])) =
      ts.map (fun t => (requestKey t, t.2)) ++ [(requestKey tlast, tlast.2)] := by
    rw [h0, hsplit, h1, h2]
  refine ⟨foldl_applyCacheOp_le ops clearColorCache (by simp [clearColorCache, maxCacheSize]),
    ?_, ?_⟩
  · rw [hfinal]
    simp [getColorCacheSize, hts, maxCacheSize]
  · rw [hfinal, cacheGet_eq_none_iff]
    intro e he
    rcases List.mem_append.mp he with h1m | h1m
    · obtain ⟨t, ht, rfl⟩ := List.mem_map.mp h1m
      show requestKey t ≠ requestKey t0
      intro hcontra
      exact hk0ts (hcontra ▸ List.mem_map_of_mem requestKey ht)
    · rw [List.mem_singleton.mp h1m]
      show requestKey tlast ≠ requestKey t0
      exact fun hcontra => hk0last2 hcontra.symm


/-- First insertion request of the 101-key FIFO test. -/
def fifoT0 : (String × ℤ × ℤ) × ColorInfo := (("u0", 0, 0), ciRed)

/-- Middle 99 insertion requests of the 101-key FIFO test. -/
def fifoTs : List ((String × ℤ × ℤ) × ColorInfo) :=
  [(("u1", 0, 0), ciRed), (("u2", 0, 0), ciRed), (("u3", 0, 0), ciRed), (("u4", 0, 0), ciRed), (("u5", 0, 0), ciRed), (("u6", 0, 0), ciRed), (("u7", 0, 0), ciRed), (("u8", 0, 0), ciRed), (("u9", 0, 0), ciRed), (("u10", 0, 0), ciRed), (("u11", 0, 0), ciRed), (("u12", 0, 0), ciRed), (("u13", 0, 0), ciRed), (("u14", 0, 0), ciRed), (("u15", 0, 0), ciRed), (("u16", 0, 0), ciRed), (("u17", 0, 0), ciRed), (("u18", 0, 0), ciRed), (("u19", 0, 0), ciRed), (("u20", 0, 0), ciRed), (("u21", 0, 0), ciRed), (("u22", 0, 0), ciRed), (("u23", 0, 0), ciRed), (("u24", 0, 0), ciRed), (("u25", 0, 0), ciRed), (("u26", 0, 0), ciRed), (("u27", 0, 0), ciRed), (("u28", 0, 0), ciRed), (("u29", 0, 0), ciRed), (("u30", 0, 0), ciRed), (("u31", 0, 0), ciRed), (("u32", 0, 0), ciRed), (("u33", 0, 0), ciRed), (("u34", 0, 0), ciRed), (("u35", 0, 0), ciRed), (("u36", 0, 0), ciRed), (("u37", 0, 0), ciRed), (("u38", 0, 0), ciRed), (("u39", 0, 0), ciRed), (("u40", 0, 0), ciRed), (("u41", 0, 0), ciRed), (("u42", 0, 0), ciRed), (("u43", 0, 0), ciRed), (("u44", 0, 0), ciRed), (("u45", 0, 0), ciRed), (("u46", 0, 0), ciRed), (("u47", 0, 0), ciRed), (("u48", 0, 0), ciRed), (("u49", 0, 0), ciRed), (("u50", 0, 0), ciRed), (("u51", 0, 0), ciRed), (("u52", 0, 0), ciRed), (("u53", 0, 0), ciRed), (("u54", 0, 0), ciRed), (("u55", 0, 0), ciRed), (("u56", 0, 0), ciRed), (("u57", 0, 0), ciRed), (("u58", 0, 0), ciRed), (("u59", 0, 0), ciRed), (("u60", 0, 0), ciRed), (("u61", 0, 0), ciRed), (("u62", 0, 0), ciRed), (("u63", 0, 0), ciRed), (("u64", 0, 0), ciRed), (("u65", 0, 0), ciRed), (("u66", 0, 0), ciRed), (("u67", 0, 0), ciRed), (("u68", 0, 0), ciRed), (("u69", 0, 0), ciRed), (("u70", 0, 0), ciRed), (("u71", 0, 0), ciRed), (("u72", 0, 0), ciRed), (("u73", 0, 0), ciRed), (("u74", 0, 0), ciRed), (("u75", 0, 0), ciRed), (("u76", 0, 0), ciRed), (("u77", 0, 0), ciRed), (("u78", 0, 0), ciRed), (("u79", 0, 0), ciRed), (("u80", 0, 0), ciRed), (("u81", 0, 0), ciRed), (("u82", 0, 0), ciRed), (("u83", 0, 0), ciRed), (("u84", 0, 0), ciRed), (("u85", 0, 0), ciRed), (("u86", 0, 0), ciRed), (("u87", 0, 0), ciRed), (("u88", 0, 0), ciRed), (("u89", 0, 0), ciRed), (("u90", 0, 0), ciRed), (("u91", 0, 0), ciRed), (("u92", 0, 0), ciRed), (("u93", 0, 0), ciRed), (("u94", 0, 0), ciRed), (("u95", 0, 0), ciRed), (("u96", 0, 0), ciRed), (("u97", 0, 0), ciRed), (("u98", 0, 0), ciRed), (("u99", 0, 0), ciRed)]

/-- Last insertion request of the 101-key FIFO test. -/
def fifoTlast : (String × ℤ × ℤ) × ColorInfo := (("u100", 0, 0), ciRed)

/-- C5 witness: a concrete mutation sequence stays within capacity, and
inserting the 101 distinct keys u0 ... u100 leaves 100 entries with the
first key u0 evicted. -/
theorem cache_capacity_fifo_witness :
    getColorCacheSize ([CacheOp.set "a" 1 2 ciRed, CacheOp.clear,
        CacheOp.set "b" 3 4 ciRed].foldl applyCacheOp clearColorCache) ≤ maxCacheSize ∧
    getColorCacheSize (insertAll clearColorCache (fifoT0 :: (fifoTs ++ [fifoTlast]))) =
      maxCacheSize ∧
    cacheGet (insertAll clearColorCache (fifoT0 :: (fifoTs ++ [fifoTlast])))
      fifoT0.1.1 fifoT0.1.2.1 fifoT0.1.2.2 = none :=
  cache_capacity_fifo _ fifoT0 fifoTlast fifoTs rfl (by decide)

end RefSheet
